import Mathlib

/-!
Verification development for the sales-ai-automation repository.

The definitions below are a shallow embedding of the Python source:
  * `src/database.py`   — `Database._calculate_similarity`,
    `Database.find_potential_duplicates`, `Database.create_client`,
    `Database.get_client`, `Database.get_all_clients`,
    `Database.delete_client`, `Database.restore_client`,
    `Database.get_client_interactions`
  * `src/models.py`     — `CRMData`, `validate_json_output`, `ClientHistory`
  * `src/ai_crm.py`     — `CRMExtractor._clean_json_response`,
    `CRMExtractor.extract`
  * `src/memory.py`     — `MemoryManager.get_client_history`,
    `MemoryManager.get_context_for_ai`
  * `src/prompts.py`    — `Prompts.get_crm_prompt`

Python floats are modelled by `ℚ` (so `0.7`/`0.3` become `7/10`/`3/10`
exactly), machine strings by Lean `String`/`List Char`, SQLite tables by
Lean lists of rows in rowid order, and `datetime` timestamps by an explicit
`Timestamp` structure ordered lexicographically (SQLite compares its
`CURRENT_TIMESTAMP` strings lexicographically, which is the same order).
Fallible Python code (exceptions) is modelled with `Except`/`Option`.
-/

namespace SalesAI

/-! ### Basic character/string helpers (models of Python `str` methods)

Python's `str.lower`, `str.strip` and the `in` operator are used by the
source on ASCII data; the models below implement their ASCII behaviour.
-/

/-- Left brace character (written via its code point). -/
def lbrace : Char := Char.ofNat 123

/-- Right brace character (written via its code point). -/
def rbrace : Char := Char.ofNat 125

/-- Model of Python `str.lower` on a single character (ASCII range). -/
def lowerChar (c : Char) : Char :=
  if 'A' ≤ c ∧ c ≤ 'Z' then Char.ofNat (c.toNat + 32) else c

/-- Model of Python `str.lower` (ASCII). -/
def lowerStr (s : String) : String := String.mk (s.data.map lowerChar)

/-- The characters Python `str.strip()` removes by default. -/
def isPyWS (c : Char) : Bool :=
  c = ' ' || c = '\t' || c = '\n' || c = '\r' || c = Char.ofNat 11 || c = Char.ofNat 12

/-- Model of Python `str.strip()` on a character list. -/
def stripChars (l : List Char) : List Char :=
  ((l.dropWhile isPyWS).reverse.dropWhile isPyWS).reverse

/-- Model of Python `str.strip()`. -/
def pyStrip (s : String) : String := String.mk (stripChars s.data)

/-- Model of the Python substring test `pat in s` on character lists. -/
def containsSub (pat : List Char) : List Char → Bool
  | [] => pat.isPrefixOf []
  | c :: t => pat.isPrefixOf (c :: t) || containsSub pat t

/-- Substring test on strings (Python `pat in s`). -/
def strContains (s pat : String) : Bool := containsSub pat.data s.data

/-- Split a character list at the first occurrence of `pat`:
returns the part before and the part after the occurrence. -/
def splitFirst (pat : List Char) : List Char → Option (List Char × List Char)
  | [] => if pat.isPrefixOf ([] : List Char) then some ([], []) else none
  | c :: t =>
    if pat.isPrefixOf (c :: t) then some ([], (c :: t).drop pat.length)
    else (splitFirst pat t).map (fun p => (c :: p.1, p.2))

/-- The part of `s` before the first occurrence of `pat`
(all of `s` when `pat` does not occur): model of Python `s.split(pat)[0]`. -/
def takeBeforeFirst (pat s : List Char) : List Char :=
  match splitFirst pat s with
  | some p => p.1
  | none => s

/-- Last index of character `c` in `l`, if any. -/
def lastIdxOf (c : Char) (l : List Char) : Option Nat :=
  match (l.reverse).findIdx? (· = c) with
  | some i => some (l.length - 1 - i)
  | none => none

/-! ### Model of `difflib.SequenceMatcher` (used by `_calculate_similarity`)

`src/database.py` line 125 calls
`SequenceMatcher(None, str1.lower(), str2.lower()).ratio()`.
With `isjunk = None` and (for strings shorter than 200 characters) the
`autojunk` heuristic inert, `find_longest_match` returns the longest common
contiguous block, preferring the block with the smallest start in the first
string and then the smallest start in the second, and `ratio` is
`2 * M / T` where `M` is the total size of the matching blocks found by the
recursive Ratcliff–Obershelp decomposition and `T` the sum of the lengths.
-/

/-- Length of the longest common prefix of two character lists. -/
def cpl : List Char → List Char → Nat
  | a :: as', b :: bs' => if a = b then cpl as' bs' + 1 else 0
  | _, _ => 0

/-- All index pairs `(i, j)` with `i < la`, `j < lb`, in lexicographic order. -/
def idxPairs (la lb : Nat) : List (Nat × Nat) :=
  (List.range la).flatMap (fun i => (List.range lb).map (fun j => (i, j)))

/-- Fold step used by `findLongestMatch`: keep the candidate with the
strictly larger block length (ties keep the earlier candidate, matching
difflib's strict-inequality update). -/
def flmStep (a b : List Char) (best : Nat × Nat × Nat) (ij : Nat × Nat) :
    Nat × Nat × Nat :=
  let k := cpl (a.drop ij.1) (b.drop ij.2)
  if best.2.2 < k then (ij.1, ij.2, k) else best

/-- Model of `SequenceMatcher.find_longest_match` (no junk): the longest
common contiguous block `(i, j, size)`, preferring small `i`, then small
`j`; `(0, 0, 0)` when there is no common character. -/
def findLongestMatch (a b : List Char) : Nat × Nat × Nat :=
  (idxPairs a.length b.length).foldl (flmStep a b) (0, 0, 0)

/-- Total matched size over the Ratcliff–Obershelp recursion
(`get_matching_blocks`), with explicit fuel; `matchTotal` supplies enough
fuel for the recursion (each level strictly shrinks the input). -/
def matchTotalF : Nat → List Char → List Char → Nat
  | 0, _, _ => 0
  | fuel + 1, a, b =>
    let r := findLongestMatch a b
    if r.2.2 = 0 then 0
    else
      r.2.2 + matchTotalF fuel (a.take r.1) (b.take r.2.1) +
        matchTotalF fuel (a.drop (r.1 + r.2.2)) (b.drop (r.2.1 + r.2.2))

/-- Sum of the sizes of all matching blocks of `SequenceMatcher`. -/
def matchTotal (a b : List Char) : Nat :=
  matchTotalF (a.length + b.length) a b

/-- Model of `SequenceMatcher.ratio()` as an exact rational:
`2 * M / T` (and `1` when both sequences are empty, as in
`difflib._calculate_ratio`). -/
def smRatioQ (a b : List Char) : ℚ :=
  if a.length + b.length = 0 then 1
  else 2 * (matchTotal a b : ℚ) / ((a.length + b.length : Nat) : ℚ)

/-- Python truthiness of an optional string (`None` and `""` are falsy). -/
def truthy : Option String → Bool
  | none => false
  | some s => s ≠ ""

/-- Model of `Database._calculate_similarity` (src/database.py lines
121–125): `0` when either argument is falsy (`None`/empty), otherwise
`SequenceMatcher(None, str1.lower(), str2.lower()).ratio() * 100`. -/
def calculate_similarity (str1 str2 : Option String) : ℚ :=
  if !truthy str1 || !truthy str2 then 0
  else
    match str1, str2 with
    | some s1, some s2 => smRatioQ (lowerStr s1).data (lowerStr s2).data * 100
    | _, _ => 0

/-! ### Model of JSON values and `json.loads`

`validate_json_output` (src/models.py lines 151–162) first runs the raw
text through Python's `json.loads`.  The parser below models the stdlib
scanner: the same grammar, the same "last duplicate key wins" dictionary
semantics, and the same error-message templates with `line`/`column`/
`char` positions.  Numbers are kept as their source lexeme (Python parses
them into `int`/`float`; no claim depends on numeric re-formatting), and
a `\uXXXX` escape is mapped through `Char.ofNat` (surrogate-pair joining
is not modelled; no claim involves such input). -/

inductive Json where
  | null
  | bool (b : Bool)
  | num (lex : String)
  | str (s : String)
  | arr (elems : List Json)
  | obj (fields : List (String × Json))

/-- JSON whitespace skipped by the scanner (`[ \t\n\r]`), tracking the
absolute position. -/
def skipWS : List Char → Nat → List Char × Nat
  | c :: t, p =>
    if c = ' ' || c = '\t' || c = '\n' || c = '\r' then skipWS t (p + 1)
    else (c :: t, p)
  | [], p => ([], p)

/-- 1-based line number of a position, as in `json.JSONDecodeError`. -/
def jsonLineOf (full : List Char) (pos : Nat) : Nat :=
  1 + ((full.take pos).filter (fun c => c = '\n')).length

/-- 1-based column number of a position, as in `json.JSONDecodeError`. -/
def jsonColOf (full : List Char) (pos : Nat) : Nat :=
  match lastIdxOf '\n' (full.take pos) with
  | none => pos + 1
  | some t => pos - t

/-- Render a scanner error the way `str(json.JSONDecodeError)` does:
`msg: line L column C (char P)`. -/
def jerr (full : List Char) (m : String) (pos : Nat) : String :=
  m ++ ": line " ++ toString (jsonLineOf full pos) ++ " column " ++
    toString (jsonColOf full pos) ++ " (char " ++ toString pos ++ ")"

/-- Value of a hexadecimal digit. -/
def hexVal? (c : Char) : Option Nat :=
  if '0' ≤ c ∧ c ≤ '9' then some (c.toNat - 48)
  else if 'a' ≤ c ∧ c ≤ 'f' then some (c.toNat - 87)
  else if 'A' ≤ c ∧ c ≤ 'F' then some (c.toNat - 55)
  else none

/-- Scan a JSON string body (the opening quote at `begin` is already
consumed; `p` is the position of the next unread character).  Mirrors the
stdlib scanner: strict mode rejects raw control characters, bad escapes
and unterminated strings, each with the stdlib's message. -/
def parseJStr (full : List Char) (begin : Nat) :
    List Char → Nat → List Char → Except String (String × List Char × Nat)
  | [], _, _ => .error (jerr full "Unterminated string starting at" begin)
  | c :: t, p, acc =>
    if c = '"' then .ok (String.mk acc.reverse, t, p + 1)
    else if c = '\\' then
      match t with
      | [] => .error (jerr full "Unterminated string starting at" begin)
      | e :: t2 =>
        if e = '"' then parseJStr full begin t2 (p + 2) ('"' :: acc)
        else if e = '\\' then parseJStr full begin t2 (p + 2) ('\\' :: acc)
        else if e = '/' then parseJStr full begin t2 (p + 2) ('/' :: acc)
        else if e = 'b' then parseJStr full begin t2 (p + 2) (Char.ofNat 8 :: acc)
        else if e = 'f' then parseJStr full begin t2 (p + 2) (Char.ofNat 12 :: acc)
        else if e = 'n' then parseJStr full begin t2 (p + 2) ('\n' :: acc)
        else if e = 'r' then parseJStr full begin t2 (p + 2) ('\r' :: acc)
        else if e = 't' then parseJStr full begin t2 (p + 2) ('\t' :: acc)
        else if e = 'u' then
          match t2 with
          | h1 :: h2 :: h3 :: h4 :: t3 =>
            match hexVal? h1, hexVal? h2, hexVal? h3, hexVal? h4 with
            | some v1, some v2, some v3, some v4 =>
              parseJStr full begin t3 (p + 6)
                (Char.ofNat (((v1 * 16 + v2) * 16 + v3) * 16 + v4) :: acc)
            | _, _, _, _ => .error (jerr full "Invalid \\uXXXX escape" (p + 2))
          | _ => .error (jerr full "Invalid \\uXXXX escape" (p + 2))
        else .error (jerr full "Invalid \\escape" (p + 1))
    else if c.toNat < 32 then
      .error (jerr full "Invalid control character at" p)
    else parseJStr full begin t (p + 1) (c :: acc)

/-- Longest prefix of decimal digits, with the rest. -/
def spanDigits : List Char → List Char × List Char
  | [] => ([], [])
  | c :: t =>
    if '0' ≤ c ∧ c ≤ '9' then
      let r := spanDigits t
      (c :: r.1, r.2)
    else ([], c :: t)

/-- Scan a JSON number at position `p`, returning its lexeme; fails with
`Expecting value` exactly when the stdlib `NUMBER_RE` regex
`(-?(?:0|[1-9]\d*))(\.\d+)?([eE][-+]?\d+)?` does not match here. -/
def parseNum (full : List Char) (s : List Char) (p : Nat) :
    Except String (String × List Char × Nat) :=
  let (neg, s1) := match s with
    | '-' :: t => (['-'], t)
    | _ => (([] : List Char), s)
  match s1 with
  | c :: t =>
    if c = '0' then
      .ok (intDone neg ['0'] t)
    else if '1' ≤ c ∧ c ≤ '9' then
      let r := spanDigits t
      .ok (intDone neg (c :: r.1) r.2)
    else .error (jerr full "Expecting value" p)
  | [] => .error (jerr full "Expecting value" p)
where
  /-- After the integer part: optionally a fraction and an exponent. -/
  intDone (neg intPart : List Char) (rest : List Char) :
      String × List Char × Nat :=
    let (frac, rest1) := match rest with
      | '.' :: t =>
        match spanDigits t with
        | ([], _) => (([] : List Char), rest)
        | (ds, r) => ('.' :: ds, r)
      | _ => (([] : List Char), rest)
    let (ex, rest2) := match rest1 with
      | e :: t =>
        if e = 'e' ∨ e = 'E' then
          match t with
          | sgn :: t2 =>
            if sgn = '+' ∨ sgn = '-' then
              match spanDigits t2 with
              | ([], _) => (([] : List Char), rest1)
              | (ds, r) => (e :: sgn :: ds, r)
            else
              match spanDigits t with
              | ([], _) => (([] : List Char), rest1)
              | (ds, r) => (e :: ds, r)
          | [] => (([] : List Char), rest1)
        else (([] : List Char), rest1)
      | [] => (([] : List Char), rest1)
    let lex := neg ++ intPart ++ frac ++ ex
    (String.mk lex, rest2, p + lex.length)

/-- Single-quote character, used inside stdlib error messages. -/
def squote : String := String.mk [Char.ofNat 39]

/-- Insert a key into an object association list with Python `dict`
semantics: an existing key keeps its place but takes the new value. -/
def updInsert : List (String × Json) → String → Json → List (String × Json)
  | [], k, v => [(k, v)]
  | (k0, v0) :: t, k, v =>
    if k0 = k then (k, v) :: t else (k0, v0) :: updInsert t k v

mutual

/-- Scan one JSON value (stdlib `scan_once`); `fuel` strictly decreases on
every recursive call and `json_loads` supplies more than enough. -/
def parseVal (full : List Char) : Nat → List Char → Nat →
    Except String (Json × List Char × Nat)
  | 0, _, p => .error (jerr full "Expecting value" p)
  | fuel + 1, s, p =>
    match s with
    | [] => .error (jerr full "Expecting value" p)
    | c :: t =>
      if c = lbrace then
        let r := skipWS t (p + 1)
        match r.1 with
        | c1 :: t1 =>
          if c1 = rbrace then .ok (.obj [], t1, r.2 + 1)
          else parseMembers full fuel r.1 r.2 []
        | [] =>
          .error (jerr full
            ("Expecting property name enclosed in double quotes") r.2)
      else if c = '[' then
        let r := skipWS t (p + 1)
        match r.1 with
        | ']' :: t1 => .ok (.arr [], t1, r.2 + 1)
        | _ => parseElems full fuel r.1 r.2 []
      else if c = '"' then
        match parseJStr full p t (p + 1) [] with
        | .error e => .error e
        | .ok (sv, s1, p1) => .ok (.str sv, s1, p1)
      else if c = 't' then
        if ['r', 'u', 'e'].isPrefixOf t then .ok (.bool true, t.drop 3, p + 4)
        else .error (jerr full "Expecting value" p)
      else if c = 'f' then
        if ['a', 'l', 's', 'e'].isPrefixOf t then .ok (.bool false, t.drop 4, p + 5)
        else .error (jerr full "Expecting value" p)
      else if c = 'n' then
        if ['u', 'l', 'l'].isPrefixOf t then .ok (.null, t.drop 3, p + 4)
        else .error (jerr full "Expecting value" p)
      else
        match parseNum full s p with
        | .error e => .error e
        | .ok (lex, s1, p1) => .ok (.num lex, s1, p1)

/-- Scan the members of an object after its `{` (whitespace already
skipped); `acc` holds the members read so far with dict semantics
(a repeated key overwrites its earlier value, as in Python). -/
def parseMembers (full : List Char) : Nat → List Char → Nat →
    List (String × Json) → Except String (Json × List Char × Nat)
  | 0, _, p, _ => .error (jerr full "Expecting value" p)
  | fuel + 1, s, p, acc =>
    match s with
    | '"' :: t =>
      match parseJStr full p t (p + 1) [] with
      | .error e => .error e
      | .ok (key, s1, p1) =>
        let r2 := skipWS s1 p1
        match r2.1 with
        | ':' :: t2 =>
          let r3 := skipWS t2 (r2.2 + 1)
          match parseVal full fuel r3.1 r3.2 with
          | .error e => .error e
          | .ok (v, s4, p4) =>
            let acc' := updInsert acc key v
            let r5 := skipWS s4 p4
            match r5.1 with
            | c5 :: t5 =>
              if c5 = rbrace then .ok (.obj acc', t5, r5.2 + 1)
              else if c5 = ',' then
                let r6 := skipWS t5 (r5.2 + 1)
                parseMembers full fuel r6.1 r6.2 acc'
              else
                .error (jerr full
                  ("Expecting " ++ squote ++ "," ++ squote ++ " delimiter") r5.2)
            | [] =>
              .error (jerr full
                ("Expecting " ++ squote ++ "," ++ squote ++ " delimiter") r5.2)
        | _ =>
          .error (jerr full
            ("Expecting " ++ squote ++ ":" ++ squote ++ " delimiter") r2.2)
    | _ =>
      .error (jerr full "Expecting property name enclosed in double quotes" p)

/-- Scan the elements of an array after its `[` (whitespace already
skipped, and the empty array already handled). -/
def parseElems (full : List Char) : Nat → List Char → Nat → List Json →
    Except String (Json × List Char × Nat)
  | 0, _, p, _ => .error (jerr full "Expecting value" p)
  | fuel + 1, s, p, acc =>
    match parseVal full fuel s p with
    | .error e => .error e
    | .ok (v, s1, p1) =>
      let r2 := skipWS s1 p1
      match r2.1 with
      | ']' :: t2 => .ok (.arr (acc ++ [v]), t2, r2.2 + 1)
      | ',' :: t2 =>
        let r3 := skipWS t2 (r2.2 + 1)
        parseElems full fuel r3.1 r3.2 (acc ++ [v])
      | _ =>
        .error (jerr full
          ("Expecting " ++ squote ++ "," ++ squote ++ " delimiter") r2.2)

end

/-- Model of `json.loads`: scan one value surrounded by optional
whitespace; anything left over is `Extra data`. -/
def json_loads (input : String) : Except String Json :=
  let full := input.data
  let r0 := skipWS full 0
  match parseVal full (2 * full.length + 2) r0.1 r0.2 with
  | .error e => .error e
  | .ok (v, s1, p1) =>
    let r2 := skipWS s1 p1
    match r2.1 with
    | [] => .ok v
    | _ => .error (jerr full "Extra data" r2.2)

/-! ### Model of the `CRMData` schema (src/models.py lines 53–81)

`CRMData(**data)` is a pydantic (v1) model.  Field validation runs in
declaration order (`summary`, `deal_stage`, `objections`,
`interest_level`, `next_action`, `followup_date`), every failing field
contributes an error naming that field, and the constructor raises a
`ValidationError` (a `ValueError` subclass) listing all of them.  A `str`
field coerces `int`/`float`/`bool` input via `str(...)` (the numeric
lexeme stands in for Python's re-rendering; no claim depends on it) and
rejects lists/objects with `str type expected`.  The two `@validator`
hooks run only when their field was supplied. -/

inductive DealStage where
  | prospecting | qualification | proposal | negotiation
  | closed_won | closed_lost | nurture
deriving DecidableEq

/-- The string value of a `DealStage` member. -/
def DealStage.value : DealStage → String
  | .prospecting => "prospecting"
  | .qualification => "qualification"
  | .proposal => "proposal"
  | .negotiation => "negotiation"
  | .closed_won => "closed_won"
  | .closed_lost => "closed_lost"
  | .nurture => "nurture"

/-- Membership test for the closed `DealStage` vocabulary. -/
def DealStage.ofString? (s : String) : Option DealStage :=
  if s = "prospecting" then some .prospecting
  else if s = "qualification" then some .qualification
  else if s = "proposal" then some .proposal
  else if s = "negotiation" then some .negotiation
  else if s = "closed_won" then some .closed_won
  else if s = "closed_lost" then some .closed_lost
  else if s = "nurture" then some .nurture
  else none

inductive InterestLevel where
  | hot | warm | cold | neutral
deriving DecidableEq

/-- The string value of an `InterestLevel` member. -/
def InterestLevel.value : InterestLevel → String
  | .hot => "hot"
  | .warm => "warm"
  | .cold => "cold"
  | .neutral => "neutral"

/-- Membership test for the closed `InterestLevel` vocabulary. -/
def InterestLevel.ofString? (s : String) : Option InterestLevel :=
  if s = "hot" then some .hot
  else if s = "warm" then some .warm
  else if s = "cold" then some .cold
  else if s = "neutral" then some .neutral
  else none

structure CRMData where
  summary : String
  deal_stage : DealStage
  objections : Option String
  interest_level : InterestLevel
  next_action : String
  followup_date : Option String
deriving DecidableEq

/-- Look a key up in a parsed JSON object (`dict` access). -/
def getField (kvs : List (String × Json)) (k : String) : Option Json :=
  (kvs.find? (fun kv => kv.1 = k)).map (fun kv => kv.2)

/-- Result of pydantic's `str` coercion of a JSON value. -/
inductive StrCoerce where
  | ok (s : String)
  | noneVal
  | typeErr

/-- pydantic v1 `str` field coercion: strings pass through, numbers and
booleans coerce via `str(...)`, `None` is kept apart (its treatment is
per-field), containers are a type error. -/
def coerceStr : Json → StrCoerce
  | .str s => .ok s
  | .num lex => .ok lex
  | .bool b => .ok (if b then "True" else "False")
  | .null => .noneVal
  | .arr _ => .typeErr
  | .obj _ => .typeErr

/-- Number of days in a month, with the Gregorian leap rule used by
`datetime`. -/
def daysInMonth (y mo : Nat) : Nat :=
  if mo = 2 then
    if y % 4 = 0 ∧ (y % 100 ≠ 0 ∨ y % 400 = 0) then 29 else 28
  else if mo = 4 ∨ mo = 6 ∨ mo = 9 ∨ mo = 11 then 30
  else 31

/-- Decimal digit test. -/
def isDigitCh (c : Char) : Bool := '0' ≤ c ∧ c ≤ '9'

/-- Numeric value of a digit string. -/
def natOfDigits (l : List Char) : Nat :=
  l.foldl (fun acc c => acc * 10 + (c.toNat - 48)) 0

/-- The month lexemes accepted by `strptime`'s `%m`
(regex `1[0-2]|0[1-9]|[1-9]`): 1 or 2 digits, value 1–12, a 2-digit
lexeme not starting past `1`. -/
def monthOk (m : List Char) : Bool :=
  match m with
  | [c] => '1' ≤ c ∧ c ≤ '9'
  | [c1, c2] =>
    (c1 = '1' ∧ '0' ≤ c2 ∧ c2 ≤ '2') ∨ (c1 = '0' ∧ '1' ≤ c2 ∧ c2 ≤ '9')
  | _ => false

/-- The day lexemes accepted by `strptime`'s `%d`
(regex `3[01]|[12]\d|0[1-9]|[1-9]`). -/
def dayOk (d : List Char) : Bool :=
  match d with
  | [c] => '1' ≤ c ∧ c ≤ '9'
  | [c1, c2] =>
    (c1 = '3' ∧ (c2 = '0' ∨ c2 = '1')) ∨
    ((c1 = '1' ∨ c1 = '2') ∧ '0' ≤ c2 ∧ c2 ≤ '9') ∨
    (c1 = '0' ∧ '1' ≤ c2 ∧ c2 ≤ '9')
  | _ => false

/-- Model of `datetime.strptime(v, "%Y-%m-%d")` succeeding: `%Y` takes
exactly four digits, `%m`/`%d` take the (possibly unpadded) lexemes
above, the whole string must be consumed, and the `datetime` constructor
then requires year ≥ 1 and a day that exists in the month. -/
def dateOk (s : String) : Bool :=
  match s.data.splitOn '-' with
  | [ys, ms, ds] =>
    ys.length = 4 ∧ ys.all isDigitCh ∧ monthOk ms ∧ dayOk ds ∧
      (let y := natOfDigits ys
       1 ≤ y ∧ natOfDigits ds ≤ daysInMonth y (natOfDigits ms))
  | _ => false

/-- Zero-padded ISO `YYYY-MM-DD` calendar-date test, written from the
spec's words ("optional follow-up date (ISO `YYYY-MM-DD` string,
validated)") for comparison with what the code accepts. -/
def specYYYYMMDD (s : String) : Bool :=
  match s.data with
  | [y1, y2, y3, y4, h1, m1, m2, h2, d1, d2] =>
    h1 = '-' ∧ h2 = '-' ∧ [y1, y2, y3, y4, m1, m2, d1, d2].all isDigitCh ∧
      (let y := natOfDigits [y1, y2, y3, y4]
       let mo := natOfDigits [m1, m2]
       let d := natOfDigits [d1, d2]
       1 ≤ y ∧ 1 ≤ mo ∧ mo ≤ 12 ∧ 1 ≤ d ∧ d ≤ daysInMonth y mo)
  | _ => false

/-- Errors of the `summary` field (required, `min_length=10`). -/
def errsSummary (kvs : List (String × Json)) : List (String × String) :=
  match getField kvs "summary" with
  | none => [("summary", "field required")]
  | some v =>
    match coerceStr v with
    | .noneVal => [("summary", "none is not an allowed value")]
    | .typeErr => [("summary", "str type expected")]
    | .ok s =>
      if s.length < 10 then
        [("summary", "ensure this value has at least 10 characters")]
      else []

/-- Value of the `summary` field (meaningful only when it has no errors). -/
def valSummary (kvs : List (String × Json)) : String :=
  match getField kvs "summary" with
  | some v =>
    match coerceStr v with
    | .ok s => s
    | _ => ""
  | none => ""

/-- Errors of the `deal_stage` field (required, closed 7-value enum). -/
def errsDealStage (kvs : List (String × Json)) : List (String × String) :=
  match getField kvs "deal_stage" with
  | none => [("deal_stage", "field required")]
  | some .null => [("deal_stage", "none is not an allowed value")]
  | some (.str s) =>
    match DealStage.ofString? s with
    | some _ => []
    | none =>
      [("deal_stage", "value is not a valid enumeration member")]
  | some _ => [("deal_stage", "value is not a valid enumeration member")]

/-- Value of the `deal_stage` field. -/
def valDealStage (kvs : List (String × Json)) : DealStage :=
  match getField kvs "deal_stage" with
  | some (.str s) => (DealStage.ofString? s).getD .prospecting
  | _ => .prospecting

/-- The strings that the `clean_objections` validator
(src/models.py lines 76–81) coerces to `None` once stripped and
lowercased. -/
def objectionsNullForms : List String := ["none", "n/a", "no objections", ""]

/-- The `clean_objections` validator body applied to a supplied string
`v`: `if v and v.strip().lower() in [...]: return None; return v`.
Note the Python truthiness guard: the empty string is falsy, so it is
returned unchanged rather than coerced. -/
def cleanObjections (v : String) : Option String :=
  if v ≠ "" ∧ (lowerStr (pyStrip v)) ∈ objectionsNullForms then none
  else some v

/-- Errors of the optional `objections` field. -/
def errsObjections (kvs : List (String × Json)) : List (String × String) :=
  match getField kvs "objections" with
  | none => []
  | some v =>
    match coerceStr v with
    | .typeErr => [("objections", "str type expected")]
    | _ => []

/-- Value of the `objections` field: absent and `null` give `None`
(the validator maps `None` to `None`); a supplied string goes through
`cleanObjections`. -/
def valObjections (kvs : List (String × Json)) : Option String :=
  match getField kvs "objections" with
  | none => none
  | some v =>
    match coerceStr v with
    | .ok s => cleanObjections s
    | _ => none

/-- Errors of the `interest_level` field (required, closed enum). -/
def errsInterest (kvs : List (String × Json)) : List (String × String) :=
  match getField kvs "interest_level" with
  | none => [("interest_level", "field required")]
  | some .null => [("interest_level", "none is not an allowed value")]
  | some (.str s) =>
    match InterestLevel.ofString? s with
    | some _ => []
    | none =>
      [("interest_level", "value is not a valid enumeration member")]
  | some _ => [("interest_level", "value is not a valid enumeration member")]

/-- Value of the `interest_level` field. -/
def valInterest (kvs : List (String × Json)) : InterestLevel :=
  match getField kvs "interest_level" with
  | some (.str s) => (InterestLevel.ofString? s).getD .neutral
  | _ => .neutral

/-- Errors of the `next_action` field (required, `min_length=5`). -/
def errsNextAction (kvs : List (String × Json)) : List (String × String) :=
  match getField kvs "next_action" with
  | none => [("next_action", "field required")]
  | some v =>
    match coerceStr v with
    | .noneVal => [("next_action", "none is not an allowed value")]
    | .typeErr => [("next_action", "str type expected")]
    | .ok s =>
      if s.length < 5 then
        [("next_action", "ensure this value has at least 5 characters")]
      else []

/-- Value of the `next_action` field. -/
def valNextAction (kvs : List (String × Json)) : String :=
  match getField kvs "next_action" with
  | some v =>
    match coerceStr v with
    | .ok s => s
    | _ => ""
  | none => ""

/-- Errors of the optional `followup_date` field: a supplied non-null
value must pass the `validate_date_format` validator, which raises
`Date must be in YYYY-MM-DD format` when `strptime` fails. -/
def errsFollowup (kvs : List (String × Json)) : List (String × String) :=
  match getField kvs "followup_date" with
  | none => []
  | some .null => []
  | some v =>
    match coerceStr v with
    | .typeErr => [("followup_date", "str type expected")]
    | .noneVal => []
    | .ok s =>
      if dateOk s then [] else
        [("followup_date", "Date must be in YYYY-MM-DD format")]

/-- Value of the `followup_date` field. -/
def valFollowup (kvs : List (String × Json)) : Option String :=
  match getField kvs "followup_date" with
  | some (v : Json) =>
    match coerceStr v with
    | .ok s => some s
    | _ => none
  | none => none

/-- All validation errors of `CRMData(**data)`, in field order. -/
def crmErrors (kvs : List (String × Json)) : List (String × String) :=
  errsSummary kvs ++ errsDealStage kvs ++ errsObjections kvs ++
    errsInterest kvs ++ errsNextAction kvs ++ errsFollowup kvs

/-- Model of `CRMData(**data)`: either the validated record or the list
of `(field, message)` errors of the pydantic `ValidationError`. -/
def buildCRMData (kvs : List (String × Json)) :
    Except (List (String × String)) CRMData :=
  if crmErrors kvs = [] then
    .ok ⟨valSummary kvs, valDealStage kvs, valObjections kvs,
      valInterest kvs, valNextAction kvs, valFollowup kvs⟩
  else .error (crmErrors kvs)

/-- The two failure shapes of `validate_json_output`
(src/models.py lines 151–162): `parse` is the
`ValueError("Invalid JSON from AI: ...")` raised on
`json.JSONDecodeError`, and `schema` is the
`ValueError("Schema validation failed: ...")` raised on any other
exception, carrying the `(field, message)` pairs of the pydantic
`ValidationError` (or the `TypeError` text when the parsed value is not
a dict). -/
inductive VErr where
  | parse (msg : String)
  | schema (errs : List (String × String))
deriving DecidableEq

/-- Model of `validate_json_output` (src/models.py lines 151–162). -/
def validate_json_output (json_str : String) : Except VErr CRMData :=
  match json_loads json_str with
  | .error m => .error (.parse ("Invalid JSON from AI: " ++ m))
  | .ok (.obj kvs) =>
    match buildCRMData kvs with
    | .ok d => .ok d
    | .error es => .error (.schema es)
  | .ok _ =>
    .error (.schema [("", "argument after ** must be a mapping")])

/-! ### Model of `CRMExtractor._clean_json_response`
(src/ai_crm.py lines 198–214)

The Python code takes `raw.split(sep)[1].split(sep2)[0]` to cut out a
fenced block.  Taking the segment between the first and second occurrence
of `sep` and then cutting it at the first `sep2` is the same as taking
everything after the first `sep` and cutting at the first `sep2`,
because every occurrence of `` ```json `` is also an occurrence of
`` ``` ``, so the first `sep2` never lies beyond the second `sep`; the
model uses the latter form. -/

/-- The tagged fence `` ```json ``. -/
def fenceJson : List Char := "```json".data

/-- The plain fence `` ``` ``. -/
def fencePlain : List Char := "```".data

/-- The fence-stripping step of `_clean_json_response`: the tagged fence
is preferred over the plain one; without either, the text is unchanged. -/
def stripFences (raw : List Char) : List Char :=
  if containsSub fenceJson raw then
    match splitFirst fenceJson raw with
    | some pr => takeBeforeFirst fencePlain pr.2
    | none => raw
  else if containsSub fencePlain raw then
    match splitFirst fencePlain raw with
    | some pr => takeBeforeFirst fencePlain pr.2
    | none => raw
  else raw

/-- The `re.search(r'\{.*\}', raw, re.DOTALL)` step: with a greedy `.*`
(and `.` matching newlines) this matches from the first `{` to the last
`}` of the text, provided some `}` follows the first `{`. -/
def braceExtract (s : List Char) : Option (List Char) :=
  match s.dropWhile (fun c => c ≠ lbrace) with
  | [] => none
  | c :: rest =>
    match lastIdxOf rbrace (c :: rest) with
    | some k => if 1 ≤ k then some ((c :: rest).take (k + 1)) else none
    | none => none

/-- Model of `CRMExtractor._clean_json_response`: strip a markdown fence,
then return the brace-delimited span, falling back to the stripped text. -/
def clean_json_response (raw : String) : String :=
  match braceExtract (stripFences raw.data) with
  | some o => String.mk o
  | none => String.mk (stripChars (stripFences raw.data))

/-! ### Model of `Prompts.get_crm_prompt` (src/prompts.py) and
`CRMExtractor.extract` (src/ai_crm.py lines 216–251)

The generation capability (`_call_ollama`/`_call_transformers`/
`_call_llama_cpp`) is a black box; it is modelled as a function
`gen : String → String` from the prompt to the raw model output.  The
first attempt and the retry use different prompts (the retry appends a
strict directive), so a single function faithfully represents the pair
of calls.  `extract` returns the validation outcome together with the
number of generation calls it performed. -/

/-- The part of `Prompts.CRM_EXTRACTION` before `{conversation}`. -/
def crmPromptPart1 : String :=
  "You are an expert sales CRM assistant. Analyze the following sales conversation and extract structured data.\n\nCONVERSATION:\n"

/-- The part of `Prompts.CRM_EXTRACTION` between `{conversation}` and
`{context}`. -/
def crmPromptPart2 : String := "\n\nCLIENT CONTEXT:\n"

/-- The part of `Prompts.CRM_EXTRACTION` after `{context}` (the `{{`/`}}`
of the Python template render as single braces). -/
def crmPromptPart3 : String :=
  "\n\nExtract the following fields and return ONLY a valid JSON object (no markdown, no explanation):\n\n\x7b\n    \"summary\": \"Brief 2-3 sentence summary of what was discussed and key outcomes\",\n    \"deal_stage\": \"One of: prospecting, qualification, proposal, negotiation, closed_won, closed_lost, nurture\",\n    \"objections\": \"Any concerns or objections raised by client, or null if none\",\n    \"interest_level\": \"One of: hot, warm, cold, neutral\",\n    \"next_action\": \"Specific next step required (e.g., " ++ squote ++ "Send proposal by Friday" ++ squote ++ ", " ++ squote ++ "Schedule demo next Tuesday" ++ squote ++ ")\",\n    \"followup_date\": \"Suggested follow-up date in YYYY-MM-DD format, or null if not applicable\"\n\x7d\n\nRules:\n- Be concise but specific in summaries\n- Deal stage must be exact match from list\n- Interest level: hot=ready to buy, warm=interested, cold=not interested, neutral=unclear\n- Next action must be actionable and specific\n- If client mentioned specific dates/times, use those for followup_date"

/-- Model of `Prompts.get_crm_prompt`. -/
def get_crm_prompt (conversation : String) (context : String) : String :=
  crmPromptPart1 ++ conversation ++ crmPromptPart2 ++ context ++ crmPromptPart3

/-- The stricter directive the retry appends to the prompt
(src/ai_crm.py line 241). -/
def strictDirective : String :=
  "\n\nCRITICAL: Return ONLY valid JSON. No other text."

/-- Model of `CRMExtractor.extract`: one generation call; on validation
failure exactly one retry with the strict directive appended; the second
validation outcome (success or failure) is what the caller sees.  The
second component counts the generation calls made. -/
def extract (gen : String → String) (conversation : String)
    (context : String) : Except VErr CRMData × Nat :=
  let prompt := get_crm_prompt conversation context
  let cleaned := clean_json_response (gen prompt)
  match validate_json_output cleaned with
  | .ok d => (.ok d, 1)
  | .error _ =>
    let retry_prompt := prompt ++ strictDirective
    (validate_json_output (clean_json_response (gen retry_prompt)), 2)

/-! ### Model of the client table and its operations (src/database.py)

A SQLite `clients` table is a list of rows in rowid order; `created_at`
timestamps and interaction dates are `Timestamp` values ordered the way
SQLite orders its `CURRENT_TIMESTAMP` strings (lexicographically on
year, month, day, seconds-of-day).  `is_active` is `Option Bool`
(`none` models a legacy `NULL`); every query in the source treats
`is_active = 1 OR is_active IS NULL` as active.  Sorting uses
`List.mergeSort`, which is stable like Python's `sorted` and SQLite's
`ORDER BY` on this model. -/

structure Timestamp where
  year : Nat
  month : Nat
  day : Nat
  secOfDay : Nat
deriving DecidableEq

/-- Chronological (= lexicographic) order on timestamps. -/
def tsLe (a b : Timestamp) : Bool :=
  if a.year ≠ b.year then a.year < b.year
  else if a.month ≠ b.month then a.month < b.month
  else if a.day ≠ b.day then a.day < b.day
  else a.secOfDay ≤ b.secOfDay

/-- A row of the `clients` table. -/
structure ClientRow where
  id : Nat
  name : String
  company : Option String
  email : Option String
  created_at : Timestamp
  is_active : Option Bool
deriving DecidableEq

/-- The pydantic `Client` model (src/models.py lines 44–50): the fields
`Client(**dict(row))` keeps (`is_active` is not a model field and is
ignored by pydantic's default extra-field policy). -/
structure Client where
  id : Nat
  name : String
  company : Option String
  email : Option String
  created_at : Timestamp
deriving DecidableEq

/-- Build the pydantic `Client` from a table row. -/
def toClient (r : ClientRow) : Client :=
  ⟨r.id, r.name, r.company, r.email, r.created_at⟩

/-- The source's active test: `is_active = 1 OR is_active IS NULL`. -/
def activeOk (r : ClientRow) : Bool :=
  match r.is_active with
  | some b => b
  | none => true

/-- One entry of the `find_potential_duplicates` result (the `scores`
dict of src/database.py lines 151–160; `email_similarity` is only added
in the `elif` branch at line 170). -/
structure DupScore where
  id : Nat
  name : String
  company : Option String
  email : Option String
  name_similarity : ℚ
  email_match : Bool
  email_similarity : Option ℚ
  company_similarity : ℚ
  total_score : ℚ
deriving DecidableEq

/-- The scoring of one active row against the candidate
(src/database.py lines 151–181).  Note the Python truthiness guards:
an email or company that is `None` *or empty* never matches and never
contributes similarity. -/
def scoreRow (name : String) (email company : Option String)
    (r : ClientRow) : DupScore :=
  let ns := calculate_similarity (some name) (some r.name)
  let emailsOn : Bool := truthy email && truthy r.email
  let em : Bool := emailsOn &&
    (match email, r.email with
     | some e, some re => lowerStr e = lowerStr re
     | _, _ => false)
  let esim : Option ℚ :=
    if emailsOn && !em then some (calculate_similarity email r.email)
    else none
  let cs : ℚ :=
    if truthy company && truthy r.company then
      calculate_similarity company r.company
    else 0
  let total : ℚ := if em then 100 else ns * (7 / 10) + cs * (3 / 10)
  ⟨r.id, r.name, r.company, r.email, ns, em, esim, cs, total⟩

/-- The duplicate threshold `DUPLICATE_SIMILARITY_THRESHOLD`
(src/config.py line 75). -/
def DUPLICATE_SIMILARITY_THRESHOLD : ℚ := 85

/-- Model of `Database.find_potential_duplicates`
(src/database.py lines 127–188): score every active row, keep those at
or above the threshold or with an email match, and sort by
`total_score` descending (stably, like Python's `sorted`). -/
def find_potential_duplicates (db : List ClientRow) (name : String)
    (email company : Option String) : List DupScore :=
  (((db.filter activeOk).map (scoreRow name email company)).filter
      (fun s => DUPLICATE_SIMILARITY_THRESHOLD ≤ s.total_score || s.email_match)).mergeSort
    (fun x y => decide (y.total_score ≤ x.total_score))

/-- The `DuplicateClientError` payload (src/database.py lines 209–213):
the message and the ranked duplicate list passed to the constructor. -/
structure DupErr where
  msg : String
  matchList : List DupScore
deriving DecidableEq

/-- The `ClientCreate` schema (src/models.py lines 32–41). -/
structure ClientCreate where
  name : String
  company : Option String
  email : Option String
deriving DecidableEq

/-- Next AUTOINCREMENT rowid of the model table. -/
def nextId (db : List ClientRow) : Nat :=
  (db.map (fun r => r.id)).foldl max 0 + 1

/-- Model of `Database.create_client` (src/database.py lines 192–228):
without `force`, a non-empty duplicate list aborts with
`DuplicateClientError` carrying it and the table is untouched;
otherwise the row is inserted with `is_active = 1` and the stored row
is returned.  `now` stands for `CURRENT_TIMESTAMP`. -/
def create_client (db : List ClientRow) (client : ClientCreate)
    (force : Bool) (now : Timestamp) : Except DupErr Client × List ClientRow :=
  let dups :=
    if force then [] else
      find_potential_duplicates db client.name client.email client.company
  if force = false ∧ dups ≠ [] then
    (.error ⟨"Found " ++ toString dups.length ++ " potential duplicate(s)",
      dups⟩, db)
  else
    let row : ClientRow :=
      ⟨nextId db, client.name, client.company, client.email, now, some true⟩
    (.ok (toClient row), db ++ [row])

/-- Model of `Database.get_client` (src/database.py lines 230–240): note
the query filters on `is_active = 1 OR is_active IS NULL`, so a
soft-deleted client is *not* returned. -/
def get_client (db : List ClientRow) (client_id : Nat) : Option Client :=
  (db.find? (fun r => r.id = client_id && activeOk r)).map toClient

/-- Model of `Database.get_all_clients` (src/database.py lines 242–252):
optionally keep inactive rows, then `ORDER BY created_at DESC`. -/
def get_all_clients (db : List ClientRow) (include_inactive : Bool) :
    List Client :=
  (((if include_inactive then db else db.filter activeOk)).mergeSort
      (fun x y => tsLe y.created_at x.created_at)).map toClient

/-- Model of the soft-delete branch of `Database.delete_client`
(src/database.py lines 295–301): set `is_active = 0` on the matching
row(s); the boolean is `cursor.rowcount > 0`. -/
def delete_client_soft (db : List ClientRow) (client_id : Nat) :
    List ClientRow × Bool :=
  (db.map (fun r =>
      if r.id = client_id then { r with is_active := some false } else r),
    db.any (fun r => r.id = client_id))

/-- Model of `Database.restore_client` (src/database.py lines 311–318):
set `is_active = 1` on the matching row(s). -/
def restore_client (db : List ClientRow) (client_id : Nat) :
    List ClientRow × Bool :=
  (db.map (fun r =>
      if r.id = client_id then { r with is_active := some true } else r),
    db.any (fun r => r.id = client_id))

/-! ### Model of the interaction table and `MemoryManager`
(src/database.py lines 342–381, src/memory.py, src/models.py
lines 126–148) -/

/-- A row of the `interactions` table; the pydantic `Interaction` model
carries the same fields (its `deal_stage`/`interest_level` are plain
strings). -/
structure InteractionRow where
  id : Nat
  client_id : Nat
  date : Timestamp
  raw_text : String
  summary : String
  deal_stage : String
  objections : Option String
  interest_level : String
  next_action : String
  followup_date : Option String
deriving DecidableEq

/-- The whole store: both tables in rowid order. -/
structure DBState where
  clients : List ClientRow
  interactions : List InteractionRow
deriving DecidableEq

/-- Model of `Database.get_client_interactions`
(src/database.py lines 371–381): the client's rows,
`ORDER BY date DESC`. -/
def get_client_interactions (db : DBState) (client_id : Nat) :
    List InteractionRow :=
  ((db.interactions.filter (fun i => i.client_id = client_id))).mergeSort
    (fun x y => tsLe y.date x.date)

/-- Zero-padded two-digit rendering (`strftime` `%m`/`%d`). -/
def pad2 (n : Nat) : String :=
  if n < 10 then "0" ++ toString n else toString n

/-- Zero-padded four-digit rendering (`strftime` `%Y`). -/
def pad4 (n : Nat) : String :=
  if n < 10 then "000" ++ toString n
  else if n < 100 then "00" ++ toString n
  else if n < 1000 then "0" ++ toString n
  else toString n

/-- `strftime('%Y-%m-%d')` on a timestamp. -/
def fmtYMD (t : Timestamp) : String :=
  pad4 t.year ++ "-" ++ pad2 t.month ++ "-" ++ pad2 t.day

/-- The pydantic `ClientHistory` model (src/models.py lines 126–131). -/
structure ClientHistory where
  client : Client
  interactions : List InteractionRow
  total_interactions : Nat
  last_contact : Option Timestamp
deriving DecidableEq

/-- The per-interaction lines of `ClientHistory.to_context_string`
(the `objections` line appears only for a truthy value). -/
def interLines (idx : Nat) (i : InteractionRow) : List String :=
  ["\n" ++ toString idx ++ ". " ++ fmtYMD i.date ++ " - " ++ i.deal_stage,
    "   Summary: " ++ i.summary] ++
    (if truthy i.objections then
      ["   Objections: " ++ i.objections.getD ""] else [])

/-- `enumerate(..., 1)` over the rendered interactions. -/
def enumLines (idx : Nat) : List InteractionRow → List String
  | [] => []
  | i :: t => interLines idx i ++ enumLines (idx + 1) t

/-- Model of `ClientHistory.to_context_string`
(src/models.py lines 133–148): header lines, then the *last three* of
the held interactions (`self.interactions[-3:]`), joined by newlines. -/
def to_context_string (h : ClientHistory) : String :=
  let companyStr :=
    match h.client.company with
    | some c => if c = "" then "No company" else c
    | none => "No company"
  let lastStr :=
    match h.last_contact with
    | some t => fmtYMD t
    | none => "Never"
  String.intercalate "\n"
    (["Client: " ++ h.client.name ++ " (" ++ companyStr ++ ")",
      "Total interactions: " ++ toString h.total_interactions,
      "Last contact: " ++ lastStr,
      "\nRecent History:"] ++
      enumLines 1
        (h.interactions.drop (h.interactions.length - 3)))

/-- Model of `MemoryManager.get_client_history`
(src/memory.py lines 22–44): `none` models the `ValueError` raised when
`get_client` finds no (active) client. -/
def get_client_history (db : DBState) (client_id : Nat) :
    Option ClientHistory :=
  (get_client db.clients client_id).map (fun c =>
    let inters := get_client_interactions db client_id
    ⟨c, inters, inters.length,
      match inters with
      | [] => none
      | i :: _ => some i.date⟩)

/-- The fallback string of `MemoryManager.get_context_for_ai`. -/
def noHistoryMsg : String := "New client - no previous history."

/-- Model of `MemoryManager.get_context_for_ai`
(src/memory.py lines 46–61): the `ValueError` from a missing or
soft-deleted client is caught and mapped to the fallback string;
otherwise the history is truncated to the first `max_interactions`
(newest-first) interactions, `total_interactions` is set to the
truncated length, and the result is rendered. -/
def get_context_for_ai (db : DBState) (client_id : Nat)
    (max_interactions : Nat) : String :=
  match get_client_history db client_id with
  | none => noHistoryMsg
  | some h =>
    to_context_string
      ⟨h.client, h.interactions.take max_interactions,
        (h.interactions.take max_interactions).length, h.last_contact⟩

/-! ### Lemmas about the `SequenceMatcher` model -/

theorem cpl_le_left (a b : List Char) : cpl a b ≤ a.length := by
  induction a generalizing b with
  | nil => simp [cpl]
  | cons c t ih =>
    cases b with
    | nil => simp [cpl]
    | cons d u =>
      by_cases h : c = d
      · simpa [cpl, h] using ih u
      · simp [cpl, h]

theorem cpl_le_right (a b : List Char) : cpl a b ≤ b.length := by
  induction a generalizing b with
  | nil => simp [cpl]
  | cons c t ih =>
    cases b with
    | nil => simp [cpl]
    | cons d u =>
      by_cases h : c = d
      · simpa [cpl, h] using ih u
      · simp [cpl, h]

theorem cpl_self (a : List Char) : cpl a a = a.length := by
  induction a with
  | nil => simp [cpl]
  | cons c t ih => simp [cpl, ih]

/-- Folding `flmStep` keeps a best candidate whose size dominates every
remaining candidate. -/
theorem foldl_flmStep_const (a b : List Char) (best : Nat × Nat × Nat)
    (l : List (Nat × Nat))
    (h : ∀ ij ∈ l, cpl (a.drop ij.1) (b.drop ij.2) ≤ best.2.2) :
    l.foldl (flmStep a b) best = best := by
  induction l with
  | nil => rfl
  | cons ij tl ih =>
    have h1 : cpl (a.drop ij.1) (b.drop ij.2) ≤ best.2.2 := h ij (by simp)
    have hstep : flmStep a b best ij = best := by
      unfold flmStep
      simp only [if_neg (not_lt.mpr h1)]
    rw [List.foldl_cons, hstep]
    exact ih (fun p hp => h p (by simp [hp]))

/-- The size component of the fold is always bounded by the common-prefix
length at its own indices. -/
theorem foldl_flmStep_inv (a b : List Char) (l : List (Nat × Nat))
    (best : Nat × Nat × Nat)
    (h : best.2.2 ≤ cpl (a.drop best.1) (b.drop best.2.1)) :
    (l.foldl (flmStep a b) best).2.2 ≤
      cpl (a.drop (l.foldl (flmStep a b) best).1)
        (b.drop (l.foldl (flmStep a b) best).2.1) := by
  induction l generalizing best with
  | nil => exact h
  | cons ij tl ih =>
    rw [List.foldl_cons]
    apply ih
    unfold flmStep
    by_cases hlt : best.2.2 < cpl (a.drop ij.1) (b.drop ij.2)
    · simp [hlt]
    · simpa [hlt] using h

theorem flm_size_le (a b : List Char) :
    (findLongestMatch a b).2.2 ≤
      cpl (a.drop (findLongestMatch a b).1)
        (b.drop (findLongestMatch a b).2.1) := by
  unfold findLongestMatch
  exact foldl_flmStep_inv a b _ (0, 0, 0) (by simp)

/-- For a nonempty list, matching a list against itself finds the whole
list as the single longest block. -/
theorem flm_self (a : List Char) (h : a ≠ []) :
    findLongestMatch a a = (0, 0, a.length) := by
  obtain ⟨m, hm⟩ : ∃ m, a.length = m + 1 := by
    cases a with
    | nil => exact absurd rfl h
    | cons c t => exact ⟨t.length, rfl⟩
  have hpairs : ∃ tl, idxPairs a.length a.length = (0, 0) :: tl := by
    rw [hm]
    unfold idxPairs
    rw [List.range_succ_eq_map, List.flatMap_cons]
    rw [List.map_cons, List.cons_append]
    exact ⟨_, rfl⟩
  obtain ⟨tl, htl⟩ := hpairs
  unfold findLongestMatch
  rw [htl, List.foldl_cons]
  have hstep : flmStep a a (0, 0, 0) (0, 0) = (0, 0, a.length) := by
    unfold flmStep
    simp [cpl_self, hm]
  rw [hstep]
  exact foldl_flmStep_const a a _ tl
    (fun ij _ => le_trans (cpl_le_left _ _) (by simp))

theorem matchTotalF_nil_nil (fuel : Nat) : matchTotalF fuel [] [] = 0 := by
  cases fuel with
  | zero => rfl
  | succ f => simp [matchTotalF, findLongestMatch, idxPairs]

theorem matchTotalF_le_left (fuel : Nat) :
    ∀ a b : List Char, matchTotalF fuel a b ≤ a.length := by
  induction fuel with
  | zero => intro a b; simp [matchTotalF]
  | succ f ih =>
    intro a b
    show (let r := findLongestMatch a b
      if r.2.2 = 0 then 0
      else r.2.2 + matchTotalF f (a.take r.1) (b.take r.2.1) +
        matchTotalF f (a.drop (r.1 + r.2.2)) (b.drop (r.2.1 + r.2.2))) ≤ a.length
    set r := findLongestMatch a b with hr
    by_cases h0 : r.2.2 = 0
    · simp [h0]
    · simp only [if_neg h0]
      have hik : r.2.2 ≤ a.length - r.1 := by
        have := flm_size_le a b
        rw [← hr] at this
        exact le_trans this (by simpa using cpl_le_left (a.drop r.1) (b.drop r.2.1))
      have h1 : matchTotalF f (a.take r.1) (b.take r.2.1) ≤ r.1 := by
        have := ih (a.take r.1) (b.take r.2.1)
        exact le_trans this (by simp)
      have h2 : matchTotalF f (a.drop (r.1 + r.2.2)) (b.drop (r.2.1 + r.2.2)) ≤
          a.length - (r.1 + r.2.2) := by
        have := ih (a.drop (r.1 + r.2.2)) (b.drop (r.2.1 + r.2.2))
        simpa using this
      omega

theorem matchTotalF_le_right (fuel : Nat) :
    ∀ a b : List Char, matchTotalF fuel a b ≤ b.length := by
  induction fuel with
  | zero => intro a b; simp [matchTotalF]
  | succ f ih =>
    intro a b
    show (let r := findLongestMatch a b
      if r.2.2 = 0 then 0
      else r.2.2 + matchTotalF f (a.take r.1) (b.take r.2.1) +
        matchTotalF f (a.drop (r.1 + r.2.2)) (b.drop (r.2.1 + r.2.2))) ≤ b.length
    set r := findLongestMatch a b with hr
    by_cases h0 : r.2.2 = 0
    · simp [h0]
    · simp only [if_neg h0]
      have hjk : r.2.2 ≤ b.length - r.2.1 := by
        have := flm_size_le a b
        rw [← hr] at this
        exact le_trans this (by simpa using cpl_le_right (a.drop r.1) (b.drop r.2.1))
      have h1 : matchTotalF f (a.take r.1) (b.take r.2.1) ≤ r.2.1 := by
        have := ih (a.take r.1) (b.take r.2.1)
        exact le_trans this (by simp)
      have h2 : matchTotalF f (a.drop (r.1 + r.2.2)) (b.drop (r.2.1 + r.2.2)) ≤
          b.length - (r.2.1 + r.2.2) := by
        have := ih (a.drop (r.1 + r.2.2)) (b.drop (r.2.1 + r.2.2))
        simpa using this
      omega

theorem matchTotal_le_left (a b : List Char) : matchTotal a b ≤ a.length :=
  matchTotalF_le_left _ a b

theorem matchTotal_le_right (a b : List Char) : matchTotal a b ≤ b.length :=
  matchTotalF_le_right _ a b

theorem matchTotal_self (a : List Char) : matchTotal a a = a.length := by
  rcases eq_or_ne a [] with h | h
  · subst h; rfl
  · have hn : a.length ≠ 0 := by
      simpa using (List.length_pos.mpr h).ne'
    unfold matchTotal
    obtain ⟨f, hf⟩ : ∃ f, a.length + a.length = f + 1 := ⟨a.length + a.length - 1, by omega⟩
    rw [hf]
    show (let r := findLongestMatch a a
      if r.2.2 = 0 then 0
      else r.2.2 + matchTotalF f (a.take r.1) (a.take r.2.1) +
        matchTotalF f (a.drop (r.1 + r.2.2)) (a.drop (r.2.1 + r.2.2))) = a.length
    rw [flm_self a h]
    simp [hn, matchTotalF_nil_nil]

theorem smRatioQ_self (a : List Char) (h : a ≠ []) : smRatioQ a a = 1 := by
  have hn : a.length ≠ 0 := by simpa using (List.length_pos.mpr h).ne'
  unfold smRatioQ
  rw [if_neg (by omega), matchTotal_self]
  have : ((a.length + a.length : Nat) : ℚ) = 2 * (a.length : ℚ) := by push_cast; ring
  rw [this]
  field_simp

theorem smRatioQ_nonneg (a b : List Char) : 0 ≤ smRatioQ a b := by
  unfold smRatioQ
  split
  · norm_num
  · positivity

theorem smRatioQ_le_one (a b : List Char) : smRatioQ a b ≤ 1 := by
  unfold smRatioQ
  split
  · exact le_refl 1
  · rename_i h
    have hT : (0 : ℚ) < ((a.length + b.length : Nat) : ℚ) := by
      have : 0 < a.length + b.length := Nat.pos_of_ne_zero h
      exact_mod_cast this
    rw [div_le_one hT]
    have hM : matchTotal a b + matchTotal a b ≤ a.length + b.length :=
      Nat.add_le_add (matchTotal_le_left a b) (matchTotal_le_right a b)
    have : ((matchTotal a b + matchTotal a b : Nat) : ℚ) ≤
        ((a.length + b.length : Nat) : ℚ) := by exact_mod_cast hM
    push_cast at this ⊢
    linarith

/-! ### Helper lemmas about the client table -/

/-- Sample timestamp used by concrete witnesses. -/
def sampleTs : Timestamp := ⟨2025, 1, 1, 0⟩

theorem get_client_none_of_all_inactive (db : List ClientRow) (client_id : Nat)
    (h : ∀ r ∈ db, r.id = client_id → r.is_active = some false) :
    get_client db client_id = none := by
  unfold get_client
  have hf : db.find? (fun r => r.id = client_id && activeOk r) = none := by
    apply List.find?_eq_none.mpr
    intro r hr
    simp only [Bool.and_eq_true, decide_eq_true_eq, not_and]
    intro hid
    simp [activeOk, h r hr hid]
  rw [hf]
  rfl

theorem get_client_some_of_active (db : List ClientRow) (client_id : Nat)
    (r : ClientRow) (hr : r ∈ db) (hid : r.id = client_id)
    (hact : activeOk r = true)
    (huniq : ∀ r' ∈ db, r'.id = client_id → r' = r) :
    get_client db client_id = some (toClient r) := by
  unfold get_client
  induction db with
  | nil => exact absurd hr (List.not_mem_nil r)
  | cons a t ih =>
    by_cases pa : (a.id = client_id && activeOk a) = true
    · rw [List.find?_cons_of_pos t pa]
      have haid : a.id = client_id := by
        have := (Bool.and_eq_true _ _).mp pa
        simpa using this.1
      rw [huniq a (by simp) haid]
      rfl
    · rw [List.find?_cons_of_neg t pa]
      have har : a ≠ r := by
        intro he
        apply pa
        rw [he]
        simp [hid, hact]
      have hrt : r ∈ t := by
        rcases List.mem_cons.mp hr with h1 | h1
        · exact absurd h1.symm har
        · exact h1
      exact ih hrt (fun r' hr' hid' => huniq r' (by simp [hr']) hid')

/-! ### Claim C7: the active flag and direct lookup by id -/

/-- C7, counterexample: the claim says `get_client` "returns the client
record regardless of whether its active flag is set or cleared", but the
query in src/database.py lines 233–238 filters on
`is_active = 1 OR is_active IS NULL`, so a stored soft-deleted client is
not returned. -/
theorem C7_get_client_gated :
    get_client [⟨1, "Ann Lee", none, none, sampleTs, some false⟩] 1 = none ∧
      (⟨1, "Ann Lee", none, none, sampleTs, some false⟩ : ClientRow) ∈
        [(⟨1, "Ann Lee", none, none, sampleTs, some false⟩ : ClientRow)] :=
  ⟨rfl, by simp⟩

/-- C7, amended: `get_client` returns a stored client exactly when its
active flag is set or absent; a soft-deleted (flag cleared) client is not
returned by direct id lookup either. -/
theorem C7_get_client_active_only (db : List ClientRow) (client_id : Nat) :
    ((∀ r ∈ db, r.id = client_id → r.is_active = some false) →
      get_client db client_id = none) ∧
    (∀ r ∈ db, r.id = client_id → activeOk r = true →
      (∀ r' ∈ db, r'.id = client_id → r' = r) →
      get_client db client_id = some (toClient r)) :=
  ⟨get_client_none_of_all_inactive db client_id,
    fun r hr hid hact huniq =>
      get_client_some_of_active db client_id r hr hid hact huniq⟩

/-- C7 witness: a concrete two-row table, one soft-deleted row (not
returned) and one active row (returned with its fields). -/
theorem C7_get_client_active_only_witness :
    get_client [⟨1, "Ann Lee", none, none, sampleTs, some false⟩] 1 = none ∧
    get_client [⟨2, "Bo Chen", some "Acme", none, sampleTs, some true⟩] 2 =
      some ⟨2, "Bo Chen", some "Acme", none, sampleTs⟩ := by
  constructor
  · exact (C7_get_client_active_only
      [⟨1, "Ann Lee", none, none, sampleTs, some false⟩] 1).1
      (by intro r hr hid; simp at hr; rw [hr])
  · exact (C7_get_client_active_only
      [⟨2, "Bo Chen", some "Acme", none, sampleTs, some true⟩] 2).2
      ⟨2, "Bo Chen", some "Acme", none, sampleTs, some true⟩ (by simp) rfl rfl
      (by intro r' hr' _; simpa using hr')

/-! ### Claim C8: duplicate-guarded client creation -/

/-- C8: with `force = false`, `create_client` raises
`DuplicateClientError` carrying the ranked duplicate list and leaves the
store unchanged exactly when `find_potential_duplicates` is non-empty;
otherwise — and always with `force = true`, which bypasses the check —
it inserts the row with the active flag set and returns the stored
record. -/
theorem C8_create_client (db : List ClientRow) (c : ClientCreate)
    (now : Timestamp) :
    (find_potential_duplicates db c.name c.email c.company ≠ [] →
      create_client db c false now =
        (.error ⟨"Found " ++
            toString (find_potential_duplicates db c.name c.email c.company).length ++
            " potential duplicate(s)",
          find_potential_duplicates db c.name c.email c.company⟩, db)) ∧
    (find_potential_duplicates db c.name c.email c.company = [] →
      create_client db c false now =
        (.ok (toClient ⟨nextId db, c.name, c.company, c.email, now, some true⟩),
          db ++ [⟨nextId db, c.name, c.company, c.email, now, some true⟩])) ∧
    (create_client db c true now =
      (.ok (toClient ⟨nextId db, c.name, c.company, c.email, now, some true⟩),
        db ++ [⟨nextId db, c.name, c.company, c.email, now, some true⟩])) ∧
    (⟨nextId db, c.name, c.company, c.email, now, some true⟩ : ClientRow).is_active
      = some true := by
  refine ⟨fun h => ?_, fun h => ?_, ?_, rfl⟩
  · simp [create_client, h]
  · simp [create_client, h]
  · simp [create_client]

/-- C8 witness: a case-insensitively matching email triggers the
duplicate error and leaves the one-row store unchanged; an empty store
accepts the insert and returns the stored record with the active flag
set. -/
theorem C8_create_client_witness :
    create_client [⟨1, "Sarah Jones", none, some "sarah@acme.com", sampleTs, some true⟩]
        ⟨"Sara Jones", none, some "SARAH@ACME.COM"⟩ false sampleTs =
      (.error ⟨"Found 1 potential duplicate(s)",
        [scoreRow "Sara Jones" (some "SARAH@ACME.COM") none
          ⟨1, "Sarah Jones", none, some "sarah@acme.com", sampleTs, some true⟩]⟩,
        [⟨1, "Sarah Jones", none, some "sarah@acme.com", sampleTs, some true⟩]) ∧
    create_client [] ⟨"New Person", none, none⟩ false sampleTs =
      (.ok ⟨1, "New Person", none, none, sampleTs⟩,
        [⟨1, "New Person", none, none, sampleTs, some true⟩]) := by
  have hsc : find_potential_duplicates
      [⟨1, "Sarah Jones", none, some "sarah@acme.com", sampleTs, some true⟩]
      "Sara Jones" (some "SARAH@ACME.COM") none =
      [scoreRow "Sara Jones" (some "SARAH@ACME.COM") none
        ⟨1, "Sarah Jones", none, some "sarah@acme.com", sampleTs, some true⟩] := by
    show ([scoreRow "Sara Jones" (some "SARAH@ACME.COM") none
        ⟨1, "Sarah Jones", none, some "sarah@acme.com", sampleTs, some true⟩].mergeSort
        (fun x y => decide (y.total_score ≤ x.total_score))) = _
    exact List.mergeSort_singleton _
  have hne : find_potential_duplicates
      [⟨1, "Sarah Jones", none, some "sarah@acme.com", sampleTs, some true⟩]
      "Sara Jones" (some "SARAH@ACME.COM") none ≠ [] := by
    rw [hsc]
    simp
  constructor
  · have h := (C8_create_client
      [⟨1, "Sarah Jones", none, some "sarah@acme.com", sampleTs, some true⟩]
      ⟨"Sara Jones", none, some "SARAH@ACME.COM"⟩ sampleTs).1 hne
    dsimp only at h
    rw [hsc] at h
    exact h.trans (by rfl)
  · have hemp : find_potential_duplicates [] "New Person" none none = [] := by
      show (([] : List DupScore).mergeSort
        (fun x y => decide (y.total_score ≤ x.total_score))) = _
      exact List.mergeSort_nil
    exact ((C8_create_client [] ⟨"New Person", none, none⟩ sampleTs).2.1
      hemp).trans (by rfl)

/-! ### Claim C9: soft delete and restore touch only the active flag -/

/-- C9: after a soft delete the client is absent from
`get_all_clients (include_inactive := false)`, and after a subsequent
restore, direct lookup returns a record whose name, company, email and
creation timestamp are unchanged. -/
theorem C9_soft_delete_restore (db : List ClientRow) (client_id : Nat) :
    (∀ c ∈ get_all_clients (delete_client_soft db client_id).1 false,
      c.id ≠ client_id) ∧
    (∀ r ∈ db, r.id = client_id →
      (∀ r' ∈ db, r'.id = client_id → r' = r) →
      get_client (restore_client (delete_client_soft db client_id).1 client_id).1
          client_id =
        some ⟨r.id, r.name, r.company, r.email, r.created_at⟩) := by
  constructor
  · intro c hc heq
    unfold get_all_clients at hc
    rcases List.mem_map.mp hc with ⟨row, hrow, hrc⟩
    rw [(List.mergeSort_perm _ _).mem_iff] at hrow
    rcases List.mem_filter.mp hrow with ⟨hmem, hact⟩
    unfold delete_client_soft at hmem
    rcases List.mem_map.mp hmem with ⟨orig, _, hfo⟩
    have hrowid : row.id = client_id := by
      rw [← hrc] at heq
      exact heq
    by_cases ho : orig.id = client_id
    · rw [if_pos ho] at hfo
      rw [← hfo] at hact
      simp [activeOk] at hact
    · rw [if_neg ho] at hfo
      rw [← hfo] at hrowid
      exact ho hrowid
  · intro r hr hid huniq
    have hdb2 : (restore_client (delete_client_soft db client_id).1 client_id).1 =
        db.map (fun x =>
          if x.id = client_id then { x with is_active := some true } else x) := by
      unfold restore_client delete_client_soft
      rw [List.map_map]
      apply List.map_congr_left
      intro x _
      by_cases hx : x.id = client_id
      · simp [hx]
      · simp [hx]
    rw [hdb2]
    have hres := get_client_some_of_active
      (db.map (fun x =>
        if x.id = client_id then { x with is_active := some true } else x))
      client_id { r with is_active := some true }
      (List.mem_map.mpr ⟨r, hr, by rw [if_pos hid]⟩)
      hid rfl ?_
    · exact hres
    · intro r'' h'' hid''
      rcases List.mem_map.mp h'' with ⟨orig, horig, hfo⟩
      by_cases ho : orig.id = client_id
      · rw [if_pos ho] at hfo
        rw [huniq orig horig ho] at hfo
        exact hfo.symm
      · rw [if_neg ho] at hfo
        rw [← hfo] at hid''
        exact absurd hid'' ho

/-- C9 witness: a concrete one-row store; after soft delete the listing
is empty, and after restore the original fields come back. -/
theorem C9_soft_delete_restore_witness :
    get_client
        (restore_client
          (delete_client_soft
            [⟨1, "Ann Lee", some "Acme", some "ann@acme.com", sampleTs, some true⟩] 1).1
          1).1 1 =
      some ⟨1, "Ann Lee", some "Acme", some "ann@acme.com", sampleTs⟩ :=
  (C9_soft_delete_restore
    [⟨1, "Ann Lee", some "Acme", some "ann@acme.com", sampleTs, some true⟩] 1).2
    ⟨1, "Ann Lee", some "Acme", some "ann@acme.com", sampleTs, some true⟩
    (by simp) rfl (by intro r' hr' _; simpa using hr')

/-! ### Claim C10: `get_context_for_ai` never raises -/

/-- C10: when no active client has the id (missing or soft-deleted),
`get_context_for_ai` returns exactly the fallback string; for an active
client it renders the history truncated to the first `max_interactions`
(newest-first) interactions — in particular at most that many. -/
theorem C10_context_fallback (db : DBState) (client_id maxI : Nat) :
    ((∀ r ∈ db.clients, r.id = client_id → r.is_active = some false) →
      get_context_for_ai db client_id maxI = noHistoryMsg) ∧
    (∀ r ∈ db.clients, r.id = client_id → activeOk r = true →
      (∀ r' ∈ db.clients, r'.id = client_id → r' = r) →
      get_context_for_ai db client_id maxI =
        to_context_string
          ⟨toClient r, (get_client_interactions db client_id).take maxI,
            ((get_client_interactions db client_id).take maxI).length,
            ((get_client_interactions db client_id).head?).map
              (fun i => i.date)⟩ ∧
      ((get_client_interactions db client_id).take maxI).length ≤ maxI) := by
  constructor
  · intro h
    unfold get_context_for_ai get_client_history
    rw [get_client_none_of_all_inactive db.clients client_id h]
    rfl
  · intro r hr hid hact huniq
    constructor
    · unfold get_context_for_ai get_client_history
      rw [get_client_some_of_active db.clients client_id r hr hid hact huniq]
      cases get_client_interactions db client_id with
      | nil => rfl
      | cons i t => rfl
    · rw [List.length_take]
      exact min_le_left _ _

/-- C10 witness: a concrete store — a soft-deleted client with history
still yields the fallback string, and an active client yields the
rendered context. -/
theorem C10_context_fallback_witness :
    get_context_for_ai
        ⟨[⟨1, "Ann Lee", none, none, sampleTs, some false⟩],
          [⟨1, 1, ⟨2025, 2, 3, 10⟩, "raw text here", "Discussed pricing",
            "proposal", none, "warm", "Send deck", none⟩]⟩ 1 3 =
      noHistoryMsg ∧
    get_context_for_ai
        ⟨[⟨2, "Bo Chen", none, none, sampleTs, some true⟩], []⟩ 2 3 =
      to_context_string ⟨⟨2, "Bo Chen", none, none, sampleTs⟩, [], 0, none⟩ := by
  constructor
  · exact (C10_context_fallback
      ⟨[⟨1, "Ann Lee", none, none, sampleTs, some false⟩],
        [⟨1, 1, ⟨2025, 2, 3, 10⟩, "raw text here", "Discussed pricing",
          "proposal", none, "warm", "Send deck", none⟩]⟩ 1 3).1
      (by intro r hr hid; simp at hr; rw [hr])
  · have hg : get_client_interactions
        ⟨[⟨2, "Bo Chen", none, none, sampleTs, some true⟩], []⟩ 2 = [] := by
      show (([] : List InteractionRow).mergeSort
        (fun x y => tsLe y.date x.date)) = _
      exact List.mergeSort_nil
    have h := ((C10_context_fallback
      ⟨[⟨2, "Bo Chen", none, none, sampleTs, some true⟩], []⟩ 2 3).2
      ⟨2, "Bo Chen", none, none, sampleTs, some true⟩ (by simp) rfl rfl
      (by intro r' hr' _; simpa using hr')).1
    rw [hg] at h
    exact h

/-! ### Helper lemmas about `_clean_json_response` -/

theorem splitFirst_of_contains (pat s : List Char)
    (h : containsSub pat s = true) : ∃ pr, splitFirst pat s = some pr := by
  induction s with
  | nil =>
    unfold containsSub at h
    exact ⟨([], []), by unfold splitFirst; rw [if_pos h]⟩
  | cons c t ih =>
    unfold containsSub at h
    rcases Bool.or_eq_true _ _ |>.mp h with h1 | h1
    · exact ⟨([], (c :: t).drop pat.length), by unfold splitFirst; rw [if_pos h1]⟩
    · rcases ih h1 with ⟨pr, hpr⟩
      by_cases hp : pat.isPrefixOf (c :: t) = true
      · exact ⟨([], (c :: t).drop pat.length), by unfold splitFirst; rw [if_pos hp]⟩
      · refine ⟨(c :: pr.1, pr.2), ?_⟩
        unfold splitFirst
        rw [if_neg hp, hpr]
        rfl

theorem dropWhile_append_all (p : Char → Bool) (u rest : List Char)
    (h : ∀ c ∈ u, p c = true) :
    (u ++ rest).dropWhile p = rest.dropWhile p := by
  induction u with
  | nil => rfl
  | cons c t ih =>
    rw [List.cons_append, List.dropWhile_cons, if_pos (h c (by simp))]
    exact ih (fun c' hc' => h c' (by simp [hc']))

theorem findIdx?_append_skip (p : Char → Bool) (l1 l2 : List Char) :
    ∀ i : Nat, (∀ c ∈ l1, p c = false) →
    List.findIdx? p (l1 ++ l2) i = List.findIdx? p l2 (i + l1.length) := by
  induction l1 with
  | nil => intro i _; simp
  | cons c t ih =>
    intro i h
    rw [List.cons_append]
    rw [show List.findIdx? p (c :: (t ++ l2)) i =
      if p c then some i else List.findIdx? p (t ++ l2) (i + 1) from rfl]
    rw [h c (by simp)]
    simp only [Bool.false_eq_true, if_false]
    rw [ih (i + 1) (fun c' hc' => h c' (by simp [hc']))]
    congr 1
    simp only [List.length_cons]
    omega

theorem braceExtract_span (u v w : List Char)
    (hu : lbrace ∉ u) (hw : rbrace ∉ w) :
    braceExtract (u ++ (lbrace :: (v ++ rbrace :: w))) =
      some (lbrace :: v ++ [rbrace]) := by
  have hdrop : (u ++ (lbrace :: (v ++ rbrace :: w))).dropWhile
      (fun c => decide (c ≠ lbrace)) = lbrace :: (v ++ rbrace :: w) := by
    rw [dropWhile_append_all (fun c => decide (c ≠ lbrace)) u
      (lbrace :: (v ++ rbrace :: w)) (fun c hc => by
        simp only [ne_eq, decide_eq_true_eq]
        intro he
        exact hu (he ▸ hc))]
    rw [List.dropWhile_cons]
    simp
  have hlast : lastIdxOf rbrace (lbrace :: (v ++ rbrace :: w)) =
      some (v.length + 1) := by
    unfold lastIdxOf
    have hrev : (lbrace :: (v ++ rbrace :: w)).reverse =
        w.reverse ++ rbrace :: (v.reverse ++ [lbrace]) := by
      simp
    rw [hrev]
    rw [findIdx?_append_skip _ w.reverse _ 0 (fun c hc => by
      simp only [decide_eq_false_iff_not]
      intro he
      exact hw (he ▸ (List.mem_reverse.mp hc)))]
    rw [show List.findIdx? (fun x => decide (x = rbrace))
        (rbrace :: (v.reverse ++ [lbrace])) (0 + w.reverse.length) =
      if decide (rbrace = rbrace) then some (0 + w.reverse.length)
      else List.findIdx? (fun x => decide (x = rbrace))
        (v.reverse ++ [lbrace]) (0 + w.reverse.length + 1) from rfl]
    rw [if_pos (by simp)]
    simp only [List.length_reverse, List.length_cons, List.length_append]
    congr 1
    omega
  show (match (u ++ (lbrace :: (v ++ rbrace :: w))).dropWhile
      (fun c => c ≠ lbrace) with
    | [] => none
    | c :: rest =>
      match lastIdxOf rbrace (c :: rest) with
      | some k => if 1 ≤ k then some ((c :: rest).take (k + 1)) else none
      | none => none) = some (lbrace :: v ++ [rbrace])
  rw [hdrop]
  show (match lastIdxOf rbrace (lbrace :: (v ++ rbrace :: w)) with
    | some k =>
      if 1 ≤ k then some ((lbrace :: (v ++ rbrace :: w)).take (k + 1))
      else none
    | none => none) = some (lbrace :: v ++ [rbrace])
  rw [hlast]
  show (if 1 ≤ v.length + 1 then
      some ((lbrace :: (v ++ rbrace :: w)).take (v.length + 1 + 1))
    else none) = some (lbrace :: v ++ [rbrace])
  rw [if_pos (by omega)]
  congr 1
  rw [List.take_succ_cons]
  congr 1
  rw [show v ++ rbrace :: w = (v ++ [rbrace]) ++ w by simp]
  rw [List.take_append_eq_append_take]
  rw [List.take_of_length_le (by simp)]
  simp

/-! ### Claim C4: the JSON-cleaning step -/

/-- C4: `_clean_json_response` strips a markdown fence when present
(preferring the `` ```json ``-tagged fence over an untagged one) and then
extracts the brace span from the first `{` to the last `}` of the
stripped text, tolerating arbitrary commentary before and after. -/
theorem C4_clean_json_response (raw : String) :
    (∀ u v w : List Char,
      stripFences raw.data = u ++ (lbrace :: (v ++ rbrace :: w)) →
      lbrace ∉ u → rbrace ∉ w →
      clean_json_response raw = String.mk (lbrace :: v ++ [rbrace])) ∧
    (containsSub fenceJson raw.data = true →
      ∃ pr, splitFirst fenceJson raw.data = some pr ∧
        stripFences raw.data = takeBeforeFirst fencePlain pr.2) ∧
    (containsSub fenceJson raw.data = false →
      containsSub fencePlain raw.data = true →
      ∃ pr, splitFirst fencePlain raw.data = some pr ∧
        stripFences raw.data = takeBeforeFirst fencePlain pr.2) ∧
    (containsSub fenceJson raw.data = false →
      containsSub fencePlain raw.data = false →
      stripFences raw.data = raw.data) := by
  refine ⟨?_, ?_, ?_, ?_⟩
  · intro u v w hspan hu hw
    have hcj : clean_json_response raw =
        (match braceExtract (stripFences raw.data) with
          | some o => String.mk o
          | none => String.mk (stripChars (stripFences raw.data))) := rfl
    rw [hcj, hspan, braceExtract_span u v w hu hw]
  · intro h
    rcases splitFirst_of_contains _ _ h with ⟨pr, hpr⟩
    exact ⟨pr, hpr, by simp [stripFences, h, hpr]⟩
  · intro h1 h2
    rcases splitFirst_of_contains _ _ h2 with ⟨pr, hpr⟩
    exact ⟨pr, hpr, by simp [stripFences, h1, h2, hpr]⟩
  · intro h1 h2
    simp [stripFences, h1, h2]

/-- C4 witness: a fenced response with commentary on both sides of the
object is cleaned to exactly the brace span. -/
theorem C4_clean_json_response_witness :
    clean_json_response "note ```json \x7b\"k\": 1\x7d ``` end" =
      "\x7b\"k\": 1\x7d" :=
  ((C4_clean_json_response "note ```json \x7b\"k\": 1\x7d ``` end").1
    " ".data "\"k\": 1".data " ".data (by rfl) (by decide) (by decide)).trans
    (by rfl)

/-! ### Helper lemmas about the validator -/

theorem validate_schema_of_errors (s : String) (kvs : List (String × Json))
    (hp : json_loads s = .ok (.obj kvs)) (hne : crmErrors kvs ≠ []) :
    validate_json_output s = .error (.schema (crmErrors kvs)) := by
  unfold validate_json_output
  rw [hp]
  show (match buildCRMData kvs with
    | Except.ok d => Except.ok d
    | Except.error es => Except.error (VErr.schema es)) =
    Except.error (VErr.schema (crmErrors kvs))
  unfold buildCRMData
  rw [if_neg hne]

/-! ### Claim C3: schema rejection of bad enums and dates -/

set_option maxRecDepth 8000 in
/-- C3, counterexample: the claim says a `followup_date` that is not a
valid `YYYY-MM-DD` calendar date is rejected, but `strptime`'s `%m`/`%d`
accept unpadded fields, so the code accepts `"2025-3-1"`, which is not in
zero-padded `YYYY-MM-DD` form. -/
theorem C3_unpadded_date_accepted :
    validate_json_output "\x7b\"summary\":\"Discussed pricing options\",\"deal_stage\":\"proposal\",\"interest_level\":\"warm\",\"next_action\":\"Send proposal\",\"followup_date\":\"2025-3-1\"\x7d" =
      .ok ⟨"Discussed pricing options", .proposal, none, .warm,
        "Send proposal", some "2025-3-1"⟩ ∧
    specYYYYMMDD "2025-3-1" = false ∧ dateOk "2025-3-1" = true :=
  ⟨rfl, rfl, rfl⟩

/-- C3, amended: the validator rejects a supplied `deal_stage` outside
the closed 7-value set and a supplied `interest_level` outside its
4-value set with a `SchemaError` naming the failing field; a supplied
`followup_date` string is rejected (naming the field) exactly when it
fails the `strptime("%Y-%m-%d")` check — four-digit year, one- or
two-digit month and day, and a day that exists in that month (so
unpadded dates such as `2025-3-1` pass); unparsable input fails with a
`ParseError` instead. -/
theorem C3_validator_rejects (s : String) :
    (∀ kvs, json_loads s = .ok (.obj kvs) →
      (∀ v, getField kvs "deal_stage" = some v →
        (∀ d : String, v = Json.str d → DealStage.ofString? d = none) →
        ∃ es, validate_json_output s = .error (.schema es) ∧
          ∃ m, ("deal_stage", m) ∈ es) ∧
      (∀ v, getField kvs "interest_level" = some v →
        (∀ d : String, v = Json.str d → InterestLevel.ofString? d = none) →
        ∃ es, validate_json_output s = .error (.schema es) ∧
          ∃ m, ("interest_level", m) ∈ es) ∧
      (∀ d : String, getField kvs "followup_date" = some (Json.str d) →
        dateOk d = false →
        ∃ es, validate_json_output s = .error (.schema es) ∧
          ∃ m, ("followup_date", m) ∈ es) ∧
      (∀ d : String, getField kvs "followup_date" = some (Json.str d) →
        dateOk d = true → errsFollowup kvs = [])) ∧
    (∀ m, json_loads s = .error m →
      validate_json_output s =
        .error (.parse ("Invalid JSON from AI: " ++ m))) := by
  constructor
  · intro kvs hp
    refine ⟨?_, ?_, ?_, ?_⟩
    · intro v hv hnv
      have hmem : ∃ m, ("deal_stage", m) ∈ errsDealStage kvs := by
        unfold errsDealStage
        rw [hv]
        cases v with
        | null =>
          exact ⟨"none is not an allowed value",
            show _ ∈ [("deal_stage", "none is not an allowed value")] by simp⟩
        | str d =>
          refine ⟨"value is not a valid enumeration member", ?_⟩
          show ("deal_stage", "value is not a valid enumeration member") ∈
            (match DealStage.ofString? d with
              | some _ => []
              | none =>
                [("deal_stage", "value is not a valid enumeration member")])
          rw [hnv d rfl]
          simp
        | bool b =>
          exact ⟨"value is not a valid enumeration member",
            show _ ∈ [("deal_stage", "value is not a valid enumeration member")]
              by simp⟩
        | num l =>
          exact ⟨"value is not a valid enumeration member",
            show _ ∈ [("deal_stage", "value is not a valid enumeration member")]
              by simp⟩
        | arr l =>
          exact ⟨"value is not a valid enumeration member",
            show _ ∈ [("deal_stage", "value is not a valid enumeration member")]
              by simp⟩
        | obj l =>
          exact ⟨"value is not a valid enumeration member",
            show _ ∈ [("deal_stage", "value is not a valid enumeration member")]
              by simp⟩
      rcases hmem with ⟨m, hm⟩
      have hcm : ("deal_stage", m) ∈ crmErrors kvs := by
        unfold crmErrors
        simp only [List.mem_append]
        tauto
      exact ⟨crmErrors kvs,
        validate_schema_of_errors s kvs hp (List.ne_nil_of_mem hcm),
        m, hcm⟩
    · intro v hv hnv
      have hmem : ∃ m, ("interest_level", m) ∈ errsInterest kvs := by
        unfold errsInterest
        rw [hv]
        cases v with
        | null =>
          exact ⟨"none is not an allowed value",
            show _ ∈ [("interest_level", "none is not an allowed value")]
              by simp⟩
        | str d =>
          refine ⟨"value is not a valid enumeration member", ?_⟩
          show ("interest_level", "value is not a valid enumeration member") ∈
            (match InterestLevel.ofString? d with
              | some _ => []
              | none =>
                [("interest_level", "value is not a valid enumeration member")])
          rw [hnv d rfl]
          simp
        | bool b =>
          exact ⟨"value is not a valid enumeration member",
            show _ ∈
              [("interest_level", "value is not a valid enumeration member")]
              by simp⟩
        | num l =>
          exact ⟨"value is not a valid enumeration member",
            show _ ∈
              [("interest_level", "value is not a valid enumeration member")]
              by simp⟩
        | arr l =>
          exact ⟨"value is not a valid enumeration member",
            show _ ∈
              [("interest_level", "value is not a valid enumeration member")]
              by simp⟩
        | obj l =>
          exact ⟨"value is not a valid enumeration member",
            show _ ∈
              [("interest_level", "value is not a valid enumeration member")]
              by simp⟩
      rcases hmem with ⟨m, hm⟩
      have hcm : ("interest_level", m) ∈ crmErrors kvs := by
        unfold crmErrors
        simp only [List.mem_append]
        tauto
      exact ⟨crmErrors kvs,
        validate_schema_of_errors s kvs hp (List.ne_nil_of_mem hcm),
        m, hcm⟩
    · intro d hv hbad
      have hm : ("followup_date", "Date must be in YYYY-MM-DD format") ∈
          errsFollowup kvs := by
        unfold errsFollowup
        rw [hv]
        show ("followup_date", _) ∈
          (if dateOk d then [] else
            [("followup_date", "Date must be in YYYY-MM-DD format")])
        rw [if_neg (by rw [hbad]; exact Bool.false_ne_true)]
        simp
      have hcm : ("followup_date", "Date must be in YYYY-MM-DD format") ∈
          crmErrors kvs := by
        unfold crmErrors
        simp only [List.mem_append]
        tauto
      exact ⟨crmErrors kvs,
        validate_schema_of_errors s kvs hp (List.ne_nil_of_mem hcm),
        _, hcm⟩
    · intro d hv hgood
      unfold errsFollowup
      rw [hv]
      show (if dateOk d then [] else
        [("followup_date", "Date must be in YYYY-MM-DD format")]) = []
      rw [if_pos (by rw [hgood])]
  · intro m hm
    unfold validate_json_output
    rw [hm]

set_option maxRecDepth 8000 in
/-- C3 witness: `deal_stage: "maybe"` is rejected with a schema error
naming `deal_stage`, and unparsable text yields a `ParseError`. -/
theorem C3_validator_rejects_witness :
    (∃ es, validate_json_output "\x7b\"summary\":\"Discussed pricing options\",\"deal_stage\":\"maybe\",\"interest_level\":\"warm\",\"next_action\":\"Send proposal\",\"followup_date\":null\x7d" =
        .error (.schema es) ∧ ∃ m, ("deal_stage", m) ∈ es) ∧
    validate_json_output "not json at all" =
      .error (.parse ("Invalid JSON from AI: " ++
        "Expecting value: line 1 column 1 (char 0)")) := by
  constructor
  · exact ((C3_validator_rejects "\x7b\"summary\":\"Discussed pricing options\",\"deal_stage\":\"maybe\",\"interest_level\":\"warm\",\"next_action\":\"Send proposal\",\"followup_date\":null\x7d").1
      [("summary", .str "Discussed pricing options"), ("deal_stage", .str "maybe"),
        ("interest_level", .str "warm"), ("next_action", .str "Send proposal"),
        ("followup_date", .null)]
      (by rfl)).1 (.str "maybe") (by rfl)
      (by intro d hd; cases hd; rfl)
  · exact (C3_validator_rejects "not json at all").2
      "Expecting value: line 1 column 1 (char 0)" (by rfl)

/-! ### Claim C5: normalization of the `objections` field -/

set_option maxRecDepth 8000 in
/-- C5: the claim (and the validator's own docstring, "Clean empty
objections to None", together with the `''` entry in its match list)
says an empty `objections` string is coerced to absent; but the guard
`if v and ...` makes the empty string falsy, so `objections: ""` is
accepted *unchanged* — the record keeps `some ""`.  The non-empty null
forms do normalize. -/
theorem C5_empty_objections_kept :
    validate_json_output "\x7b\"summary\":\"Discussed pricing options\",\"deal_stage\":\"proposal\",\"objections\":\"\",\"interest_level\":\"warm\",\"next_action\":\"Send proposal\"\x7d" =
      .ok ⟨"Discussed pricing options", .proposal, some "", .warm,
        "Send proposal", none⟩ ∧
    "" ∈ objectionsNullForms ∧
    cleanObjections "" = some "" ∧
    cleanObjections "none" = none ∧
    cleanObjections " N/A " = none ∧
    cleanObjections "No Objections" = none ∧
    cleanObjections "price too high" = some "price too high" :=
  ⟨rfl, by simp [objectionsNullForms], rfl, rfl, rfl, rfl, rfl⟩

/-! ### Claim C1: the bounded-retry extraction pipeline -/

/-- A generation stub whose output never validates (no braces, not
JSON): both attempts of `extract` fail on it. -/
def genBad : String → String := fun _ => "@@garbage@@"

/-- A generation stub returning a fenced, valid JSON object. -/
def genGood : String → String := fun _ =>
  "```json\n\x7b\"summary\": \"Discussed pricing options\", \"deal_stage\": \"proposal\", \"objections\": \"none\", \"interest_level\": \"warm\", \"next_action\": \"Send proposal\", \"followup_date\": \"2025-03-10\"\x7d\n```"

set_option maxRecDepth 8000 in
/-- C1, counterexample: the claim says the error after two failed
attempts carries the last raw output; the code propagates the second
`ValueError` from `validate_json_output`, whose message holds only the
parser/schema reason — the raw model output (here `@@garbage@@`) does
not occur in it. -/
theorem C1_error_without_raw_output :
    extract genBad "Customer call about pricing" "New client" =
      (.error (.parse
        "Invalid JSON from AI: Expecting value: line 1 column 1 (char 0)"), 2) ∧
    genBad (get_crm_prompt "Customer call about pricing" "New client" ++
      strictDirective) = "@@garbage@@" ∧
    strContains
      "Invalid JSON from AI: Expecting value: line 1 column 1 (char 0)"
      "@@garbage@@" = false :=
  ⟨rfl, rfl, rfl⟩

/-- C1, amended: `extract` makes exactly one generation call and returns
the validated record when the first output validates; otherwise it makes
exactly one further call on the same prompt with the strict directive
appended and returns that second validation outcome (the validator's
failure reason on double failure — the raw output is not attached); the
call count is always 1 or 2. -/
theorem C1_extract_retry (gen : String → String)
    (conversation context : String) :
    (∀ d, validate_json_output (clean_json_response
        (gen (get_crm_prompt conversation context))) = .ok d →
      extract gen conversation context = (.ok d, 1)) ∧
    (∀ e, validate_json_output (clean_json_response
        (gen (get_crm_prompt conversation context))) = .error e →
      extract gen conversation context =
        (validate_json_output (clean_json_response
          (gen (get_crm_prompt conversation context ++ strictDirective))), 2)) ∧
    ((extract gen conversation context).2 = 1 ∨
      (extract gen conversation context).2 = 2) := by
  have hex : extract gen conversation context =
      (match validate_json_output (clean_json_response
          (gen (get_crm_prompt conversation context))) with
        | .ok d => (.ok d, 1)
        | .error _ =>
          (validate_json_output (clean_json_response
            (gen (get_crm_prompt conversation context ++ strictDirective))),
            2)) := rfl
  refine ⟨?_, ?_, ?_⟩
  · intro d hd
    rw [hex, hd]
  · intro e he
    rw [hex, he]
  · rw [hex]
    cases validate_json_output (clean_json_response
        (gen (get_crm_prompt conversation context))) with
    | ok d => left; rfl
    | error e => right; rfl

set_option maxRecDepth 8000 in
set_option maxHeartbeats 2000000 in
/-- C1 witness: a first output that validates (after fence stripping and
objections normalization) is returned after exactly one generation
call. -/
theorem C1_extract_retry_witness :
    extract genGood "Customer call" "New client" =
      (.ok ⟨"Discussed pricing options", .proposal, none, .warm,
        "Send proposal", some "2025-03-10"⟩, 1) :=
  (C1_extract_retry genGood "Customer call" "New client").1
    ⟨"Discussed pricing options", .proposal, none, .warm,
      "Send proposal", some "2025-03-10"⟩ (by rfl)

/-! ### Helper lemmas about `_calculate_similarity` -/

theorem calculate_similarity_nonneg (str1 str2 : Option String) :
    0 ≤ calculate_similarity str1 str2 := by
  unfold calculate_similarity
  split
  · exact le_refl 0
  · cases str1 with
    | none => exact le_refl 0
    | some s1 =>
      cases str2 with
      | none => exact le_refl 0
      | some s2 =>
        show (0 : ℚ) ≤ smRatioQ (lowerStr s1).data (lowerStr s2).data * 100
        exact mul_nonneg (smRatioQ_nonneg _ _) (by norm_num)

theorem calculate_similarity_le_100 (str1 str2 : Option String) :
    calculate_similarity str1 str2 ≤ 100 := by
  unfold calculate_similarity
  split
  · norm_num
  · cases str1 with
    | none => norm_num
    | some s1 =>
      cases str2 with
      | none => norm_num
      | some s2 =>
        show smRatioQ (lowerStr s1).data (lowerStr s2).data * 100 ≤ 100
        have h := smRatioQ_le_one (lowerStr s1).data (lowerStr s2).data
        nlinarith [smRatioQ_nonneg (lowerStr s1).data (lowerStr s2).data]

theorem calculate_similarity_self (a : String) (h : a ≠ "") :
    calculate_similarity (some a) (some a) = 100 := by
  have ht : truthy (some a) = true := by simp [truthy, h]
  unfold calculate_similarity
  rw [ht]
  show (if false || false then (0 : ℚ)
    else smRatioQ (lowerStr a).data (lowerStr a).data * 100) = 100
  rw [if_neg (by simp)]
  have hne : (lowerStr a).data ≠ [] := by
    intro hc
    apply h
    have : a.data = [] := by
      have hlen := congrArg List.length hc
      simp [lowerStr] at hlen
      exact List.eq_nil_of_length_eq_zero hlen
    cases a with
    | mk d =>
      cases this
      rfl
  rw [smRatioQ_self _ hne]
  norm_num

/-! ### Claim C6: algebraic properties of the similarity scorer -/

set_option maxRecDepth 8000 in
/-- C6, counterexample: the claim (and spec §4.1) says
`similarity(a, b) == similarity(b, a)`, but `SequenceMatcher.ratio` is
not commutative: on `"ab"` vs `"bacb"` the matched totals are 2 and 1,
giving 200/3 one way and 100/3 the other. -/
theorem C6_similarity_not_symmetric :
    calculate_similarity (some "ab") (some "bacb") ≠
      calculate_similarity (some "bacb") (some "ab") := by
  have e1 : calculate_similarity (some "ab") (some "bacb") =
      2 * ((2 : Nat) : ℚ) / ((6 : Nat) : ℚ) * 100 := rfl
  have e2 : calculate_similarity (some "bacb") (some "ab") =
      2 * ((1 : Nat) : ℚ) / ((6 : Nat) : ℚ) * 100 := rfl
  rw [e1, e2]
  push_cast
  norm_num

/-- C6, amended: `similarity(a, a) = 100` for non-empty `a`; the result
is `0` whenever either input is absent or empty; the result always lies
in `[0, 100]`; and for non-empty inputs it is the sequence-matching
ratio over the case-folded strings scaled to a percentage.  (The
symmetry clause of the original claim is dropped: `SequenceMatcher`'s
ratio is not commutative.) -/
theorem C6_similarity_props (a b : String) :
    (a ≠ "" → calculate_similarity (some a) (some a) = 100) ∧
    (calculate_similarity none (some b) = 0 ∧
      calculate_similarity (some "") (some b) = 0 ∧
      calculate_similarity (some a) none = 0 ∧
      calculate_similarity (some a) (some "") = 0) ∧
    (0 ≤ calculate_similarity (some a) (some b) ∧
      calculate_similarity (some a) (some b) ≤ 100) ∧
    (a ≠ "" → b ≠ "" →
      calculate_similarity (some a) (some b) =
        smRatioQ (lowerStr a).data (lowerStr b).data * 100) := by
  refine ⟨calculate_similarity_self a, ⟨rfl, rfl, ?_, ?_⟩,
    ⟨calculate_similarity_nonneg _ _, calculate_similarity_le_100 _ _⟩, ?_⟩
  · rcases eq_or_ne a "" with h | h <;>
      simp [calculate_similarity, truthy, h]
  · rcases eq_or_ne a "" with h | h <;>
      simp [calculate_similarity, truthy, h]
  · intro h1 h2
    unfold calculate_similarity
    rw [show truthy (some a) = true by simp [truthy, h1],
      show truthy (some b) = true by simp [truthy, h2]]
    rw [if_neg (by simp)]

/-- C6 witness: the self-similarity and range clauses instantiated at
concrete non-empty strings. -/
theorem C6_similarity_props_witness :
    ("John Smith" : String) ≠ "" ∧
    calculate_similarity (some "John Smith") (some "John Smith") = 100 ∧
    0 ≤ calculate_similarity (some "John Smith") (some "Jon Smith") ∧
    calculate_similarity (some "John Smith") (some "Jon Smith") ≤ 100 :=
  ⟨by decide,
    (C6_similarity_props "John Smith" "Jon Smith").1 (by decide),
    (C6_similarity_props "John Smith" "Jon Smith").2.2.1.1,
    (C6_similarity_props "John Smith" "Jon Smith").2.2.1.2⟩

/-! ### Claim C2: duplicate detection scoring -/

/-- C2, counterexample: the claim says a case-insensitive email
equality always forces `email_match = true`, `total_score = 100` and
inclusion in the result; but the Python truthiness guards
(`if email and row_email`) treat an *empty* email as absent, so a
candidate and record both holding `""` (equal case-insensitively) do not
match and the record is not returned at all. -/
theorem C2_empty_email_ignored :
    (⟨1, "Existing Client", none, some "", sampleTs, some true⟩ :
      ClientRow).email = some "" ∧
    lowerStr "" = lowerStr "" ∧
    find_potential_duplicates
      [⟨1, "Existing Client", none, some "", sampleTs, some true⟩]
      "Someone Else" (some "") none = [] := by
  refine ⟨rfl, rfl, ?_⟩
  have hsc : (scoreRow "Someone Else" (some "") none
      ⟨1, "Existing Client", none, some "", sampleTs, some true⟩).total_score =
      calculate_similarity (some "Someone Else") (some "Existing Client") *
        (7 / 10) + 0 * (3 / 10) := rfl
  have hbound : ¬ (DUPLICATE_SIMILARITY_THRESHOLD ≤
      (scoreRow "Someone Else" (some "") none
        ⟨1, "Existing Client", none, some "", sampleTs, some true⟩).total_score) := by
    rw [hsc]
    have h := calculate_similarity_le_100 (some "Someone Else")
      (some "Existing Client")
    unfold DUPLICATE_SIMILARITY_THRESHOLD
    intro hc
    linarith
  have hpa : (decide (DUPLICATE_SIMILARITY_THRESHOLD ≤
      (scoreRow "Someone Else" (some "") none
        ⟨1, "Existing Client", none, some "", sampleTs, some true⟩).total_score)
      || (scoreRow "Someone Else" (some "") none
        ⟨1, "Existing Client", none, some "", sampleTs, some true⟩).email_match)
      = false := by
    rw [decide_eq_false hbound,
      show (scoreRow "Someone Else" (some "") none
        ⟨1, "Existing Client", none, some "", sampleTs, some true⟩).email_match
        = false from rfl]
    rfl
  show (List.filter
      (fun s => decide (DUPLICATE_SIMILARITY_THRESHOLD ≤ s.total_score) ||
        s.email_match)
      [scoreRow "Someone Else" (some "") none
        ⟨1, "Existing Client", none, some "", sampleTs, some true⟩]).mergeSort
      (fun x y => decide (y.total_score ≤ x.total_score)) = []
  simp only [List.filter_cons, hpa]
  simp

/-- C2, amended: `find_potential_duplicates` returns exactly (a
permutation of) the scored active records that reach the threshold (85)
or have an email match, sorted by `total_score` descending; a record's
`email_match` is true with `total_score = 100` (regardless of name or
company similarity) whenever the candidate email and the record email
are both *non-empty* and equal case-insensitively; otherwise
`total_score = 0.7 * name_similarity + 0.3 * company_similarity`, with
`company_similarity = 0` when either company is absent *or empty*. -/
theorem C2_find_duplicates (db : List ClientRow) (name : String)
    (email company : Option String) :
    (find_potential_duplicates db name email company).Perm
      (((db.filter activeOk).map (scoreRow name email company)).filter
        (fun s => DUPLICATE_SIMILARITY_THRESHOLD ≤ s.total_score ||
          s.email_match)) ∧
    List.Pairwise (fun x y => y.total_score ≤ x.total_score)
      (find_potential_duplicates db name email company) ∧
    (∀ r : ClientRow, ∀ e re : String,
      email = some e → r.email = some re → e ≠ "" → re ≠ "" →
      lowerStr e = lowerStr re →
      (scoreRow name email company r).email_match = true ∧
      (scoreRow name email company r).total_score = 100) ∧
    (∀ r : ClientRow, (scoreRow name email company r).email_match = false →
      (scoreRow name email company r).total_score =
        (scoreRow name email company r).name_similarity * (7 / 10) +
        (scoreRow name email company r).company_similarity * (3 / 10)) ∧
    (∀ r : ClientRow,
      (company = none ∨ company = some "" ∨ r.company = none ∨
        r.company = some "") →
      (scoreRow name email company r).company_similarity = 0) := by
  refine ⟨?_, ?_, ?_, ?_, ?_⟩
  · exact List.mergeSort_perm _ _
  · have hs := @List.sorted_mergeSort DupScore
      (fun x y => decide (y.total_score ≤ x.total_score))
      (fun a b c hab hbc => by
        simp only [decide_eq_true_eq] at *
        exact le_trans hbc hab)
      (fun a b => by
        rcases le_total a.total_score b.total_score with h | h <;>
          simp [h])
      (((db.filter activeOk).map (scoreRow name email company)).filter
        (fun s => DUPLICATE_SIMILARITY_THRESHOLD ≤ s.total_score ||
          s.email_match))
    exact hs.imp (fun h => by simpa using h)
  · intro r e re he hre hene hrene hlow
    subst he
    obtain ⟨rid, rname, rcomp, remail, rts, ract⟩ := r
    have hre' : remail = some re := hre
    subst hre'
    have hem : (scoreRow name (some e) company
        ⟨rid, rname, rcomp, some re, rts, ract⟩).email_match = true := by
      show ((truthy (some e) && truthy (some re)) &&
        decide (lowerStr e = lowerStr re)) = true
      simp [truthy, hene, hrene, hlow]
    refine ⟨hem, ?_⟩
    have h2 : (scoreRow name (some e) company
        ⟨rid, rname, rcomp, some re, rts, ract⟩).total_score =
        (if (scoreRow name (some e) company
            ⟨rid, rname, rcomp, some re, rts, ract⟩).email_match then (100 : ℚ)
          else (scoreRow name (some e) company
              ⟨rid, rname, rcomp, some re, rts, ract⟩).name_similarity * (7 / 10) +
            (scoreRow name (some e) company
              ⟨rid, rname, rcomp, some re, rts, ract⟩).company_similarity * (3 / 10)) :=
      rfl
    rw [h2, hem]
    simp
  · intro r hem
    have h2 : (scoreRow name email company r).total_score =
        (if (scoreRow name email company r).email_match then (100 : ℚ)
          else (scoreRow name email company r).name_similarity * (7 / 10) +
            (scoreRow name email company r).company_similarity * (3 / 10)) :=
      rfl
    rw [h2, hem]
    simp
  · intro r hcomp
    have h3 : (scoreRow name email company r).company_similarity =
        (if truthy company && truthy r.company then
          calculate_similarity company r.company else 0) := rfl
    rw [h3]
    rcases hcomp with h | h | h | h <;> rw [h] <;> simp [truthy]

/-- C2 witness: a case-insensitive non-empty email match forces
`email_match` and a total score of 100 (the record's name differs), and
the scored record is returned. -/
theorem C2_find_duplicates_witness :
    (scoreRow "Completely Different" (some "SARAH@ACME.COM") none
      ⟨1, "Sarah Jones", none, some "sarah@acme.com", sampleTs, some true⟩).email_match
      = true ∧
    (scoreRow "Completely Different" (some "SARAH@ACME.COM") none
      ⟨1, "Sarah Jones", none, some "sarah@acme.com", sampleTs, some true⟩).total_score
      = 100 :=
  (C2_find_duplicates
    [⟨1, "Sarah Jones", none, some "sarah@acme.com", sampleTs, some true⟩]
    "Completely Different" (some "SARAH@ACME.COM") none).2.2.1
    ⟨1, "Sarah Jones", none, some "sarah@acme.com", sampleTs, some true⟩
    "SARAH@ACME.COM" "sarah@acme.com" rfl rfl (by decide) (by decide) (by rfl)

end SalesAI
